import Mathlib

/-!
Shallow embedding of `src/TAPValidator.cpp` (classes `RAPFile` and `TAPValidator`
of the TAP3Loader repository) and proofs about it.

Modelling conventions:
* Optional C pointers of the decoded ASN.1 structures become `Option` fields.
  Dereferencing an absent pointer (a null-pointer dereference or, in debug
  builds, a failed `assert`) makes the whole computation evaluate to `none`.
* The external world of one RAP emission (the `CreateRAPFileByTAPLoader`
  catalogue call, `LoadReturnBatchToDB`, DER encoding and FTP upload) is
  abstracted by `RapEnv`: `rapSequenceNum` is the catalogue-allocated RAP
  sequence number and `result` is the combined integer outcome that
  `RAPFile::CreateRAPFile` returns (negative on catalogue / encode / upload
  failure, non-negative on success).
* The `ReturnBatch` content that matters to the specification (header
  addressing, error code, error-context path) is recorded in `RapEmission`;
  the second component of a validator's result records the RAP construction
  performed by the run, `none` when no RAP was built.
* ASN.1 codec descriptors (`asn_DEF_*`) supply their first tag through the
  parameter `tags0 : StructDescriptor → Nat`; the source computes
  `pathItemId` as `tags[0] >> 2`.
-/

/-- Result of a validation run. Modelled from the spec: the enum lives in
TAPValidator.h, which is not under src/; the spec fixes the outcomes
TAP_VALID, FATAL_ERROR, VALIDATION_IMPOSSIBLE and states that the dispatcher
short-circuits on the first non-valid section result, so the source
comparison `validationRes != TL_OK` is embedded as `≠ TAP_VALID`
(both constants are 0). -/
inductive TAPValidationResult where
  | TAP_VALID
  | FATAL_ERROR
  | VALIDATION_IMPOSSIBLE
  deriving Repr, DecidableEq

/-- Error codes of the emitted RAP files. Modelled from the spec: the integer
values live in TAP_Constants.h, which is not under src/; they are fixed by
TD.52 and only their identity matters here, so they are kept symbolic. -/
inductive ErrorCode where
  | TF_BATCH_BATCH_CONTROL_INFO_MISSING
  | TF_BATCH_ACCOUNTING_INFO_MISSING
  | TF_BATCH_NETWORK_INFO_MISSING
  | TF_BATCH_AUDIT_CONTROL_INFO_MISSING
  | BATCH_CTRL_FILE_AVAIL_TIMESTAMP_MISSING
  | BATCH_CTRL_SPEC_VERSION_MISSING
  | BATCH_CTRL_TRANSFER_CUTOFF_MISSING
  | ACCOUNTING_LOCAL_CURRENCY_MISSING
  | ACCOUNTING_TAP_DECIMAL_PLACES_MISSING
  | ACCOUNTING_TAXATION_MISSING
  | ACCOUNTING_DISCOUNTING_MISSING
  | ACCOUNTING_CURRENCY_CONVERSION_MISSING
  | CURRENCY_CONVERSION_EXRATE_CODE_MISSING
  | CURRENCY_CONVERSION_NUM_OF_DEC_PLACES_MISSING
  | CURRENCY_CONVERSION_EXCHANGE_RATE_MISSING
  | CURRENCY_CONVERSION_EXRATE_CODE_DUPLICATION
  | NETWORK_UTC_TIMEOFFSET_MISSING
  | NETWORK_REC_ENTITY_MISSING
  | AUDIT_CTRL_TOTAL_CHARGE_MISSING
  | AUDIT_CTRL_TOTAL_TAX_VALUE_MISSING
  | AUDIT_CTRL_TOTAL_DISCOUNT_MISSING
  | AUDIT_CTRL_CALL_COUNT_MISSING
  | CALL_COUNT_MISMATCH
  deriving Repr, DecidableEq

/-- Names of the ASN.1 codec descriptors (`asn_DEF_*`) whose first tag the
source reads when building error contexts. -/
inductive StructDescriptor where
  | TransferBatchD
  | BatchControlInfoD
  | AccountingInfoD
  | NetworkInfoD
  | AuditControlInfoD
  | CurrencyConversionListD
  | CallEventDetailsCountD
  deriving Repr, DecidableEq, Inhabited

/-- One element of an ErrorContextList: `{pathItemId, itemLevel}`. -/
structure ErrorContext where
  pathItemId : Nat
  itemLevel : Nat
  deriving Repr, DecidableEq

/-- A DateTimeLong value; `localTimeStamp` and `utcTimeOffset` are mandatory
ASN.1 members of the timestamp structure, hence plain fields. -/
structure FileTimeStamp where
  localTimeStamp : String
  utcTimeOffset : String
  deriving Repr, DecidableEq

structure BatchControlInfo where
  sender : Option String
  recipient : Option String
  fileSequenceNumber : Option String
  fileAvailableTimeStamp : Option FileTimeStamp
  fileCreationTimeStamp : Option FileTimeStamp
  transferCutOffTimeStamp : Option FileTimeStamp
  specificationVersionNumber : Option Int
  releaseVersionNumber : Option Int
  fileTypeIndicator : Option String
  rapFileSequenceNumber : Option String
  operatorSpecInformation : Option Unit
  deriving Repr, DecidableEq

structure CurrencyConversion where
  exchangeRateCode : Option Int
  numberOfDecimalPlaces : Option Int
  exchangeRate : Option Int
  deriving Repr, DecidableEq

structure AccountingInfo where
  taxation : Option Unit
  discounting : Option Unit
  localCurrency : Option String
  tapCurrency : Option String
  currencyConversionInfo : Option (List CurrencyConversion)
  tapDecimalPlaces : Option Int
  deriving Repr, DecidableEq

structure NetworkInfo where
  utcTimeOffsetInfo : Option Unit
  recEntityInfo : Option Unit
  deriving Repr, DecidableEq

structure AuditControlInfo where
  earliestCallTimeStamp : Option FileTimeStamp
  latestCallTimeStamp : Option FileTimeStamp
  totalCharge : Option Int
  totalTaxValue : Option Int
  totalDiscountValue : Option Int
  totalChargeRefund : Option Int
  totalTaxRefund : Option Int
  totalDiscountRefund : Option Int
  totalAdvisedChargeValueList : Option Unit
  callEventDetailsCount : Option Int
  operatorSpecInformation : Option Unit
  deriving Repr, DecidableEq

/-- One ChargeDetail; `charge` holds the value that `OctetStr2Int64` decodes
from the charge octet string (an absent charge pointer is `none`). -/
structure ChargeDetail where
  charge : Option Int
  deriving Repr, DecidableEq

structure ChargeInformation where
  taxInformation : Option Unit
  discountInformation : Option Unit
  chargeDetailList : Option (List ChargeDetail)
  deriving Repr, DecidableEq

structure BasicServiceUsed where
  chargeInformationList : Option (List ChargeInformation)
  deriving Repr, DecidableEq

structure GprsServiceUsed where
  chargeInformationList : Option (List ChargeInformation)
  deriving Repr, DecidableEq

/-- A CallEventDetail choice; only the variants inspected by the source are
distinguished, every other `present` value is `otherEvent`. -/
inductive CallEventDetail where
  | mobileOriginatedCall (basicServiceUsedList : Option (List BasicServiceUsed))
  | mobileTerminatedCall (basicServiceUsedList : Option (List BasicServiceUsed))
  | gprsCall (gprsServiceUsed : Option GprsServiceUsed)
  | otherEvent
  deriving Repr, DecidableEq

structure TransferBatch where
  batchControlInfo : Option BatchControlInfo
  accountingInfo : Option AccountingInfo
  networkInfo : Option NetworkInfo
  auditControlInfo : Option AuditControlInfo
  callEventDetails : Option (List CallEventDetail)
  deriving Repr, DecidableEq

structure Notification where
  sender : Option String
  recipient : Option String
  fileSequenceNumber : Option String
  deriving Repr, DecidableEq

/-- The decoded DataInterChange choice. -/
inductive DataInterChange where
  | transferBatch (tb : TransferBatch)
  | notification (n : Notification)
  | otherVariant
  deriving Repr, DecidableEq

/-- External-world outcome of one RAP emission, see the module comment. -/
structure RapEnv where
  rapSequenceNum : String
  result : Int
  deriving Repr, DecidableEq

/-- The observable content of the ReturnBatch built by one RAP emission. -/
structure RapEmission where
  rapSender : String
  rapRecipient : String
  rapFileSequenceNumber : String
  tapAvailableStamp : String
  fileTypeIndicator : String
  fileSequenceNumber : String
  errorCode : ErrorCode
  errorContext : List ErrorContext
  deriving Repr, DecidableEq

/-- Monadic short-circuit disjunction over `Option Bool`: the embedding of a
C loop that `return true`s on the first match, propagates a crash (`none`)
of the element test, and falls through to `false`. Elements after the first
match are not inspected, exactly like the source loops. -/
def anyO (f : α → Option Bool) : List α → Option Bool
  | [] => some false
  | x :: xs =>
    match f x with
    | none => none
    | some true => some true
    | some false => anyO f xs

namespace RAPFile

/-- Embedding of the byte-filling loop of `RAPFile::OctetString_fromInt64`
(`for (i = 7; i >= 0; i--) { buf[i] = value & 0xFF; value >>= 8;
if (value == 0) break; }`). The first component lists the emitted bytes
least-significant first (`buf[7], buf[6], …`), the second is the value left
when the fuel (the 8 slots of `buf`) ran out without the break firing.
`value & 0xFF` is `Int.emod value 256` and the arithmetic shift
`value >>= 8` is `Int.ediv value 256`. -/
def OctetString_fromInt64Loop : Int → Nat → List Int × Int
  | value, 0 => ([], value)
  | value, fuel + 1 =>
    let b := value.emod 256
    let v := value.ediv 256
    if v = 0 then ([b], 0)
    else
      let p := OctetString_fromInt64Loop v fuel
      (b :: p.1, p.2)

/-- Embedding of `RAPFile::OctetString_fromInt64`. Returns the big-endian
octet string written by `OCTET_STRING_fromBuf(&octetStr, buf + i, 8 - i)`,
or `none` where the source throws "8-byte integer overflow" or leaves the
loop without a break (in which case the source reads `buf[-1]`, undefined
behaviour). -/
def OctetString_fromInt64 (value : Int) : Option (List Int) :=
  let p := OctetString_fromInt64Loop value 8
  if p.2 ≠ 0 then none
  else
    let be := p.1.reverse
    if 128 ≤ be.headI then
      if p.1.length = 8 then none
      else some (0 :: be)
    else some be

/-- Embedding of `RAPFile::CreateRAPFile`. The catalogue call, the header
field assignments, `LoadReturnBatchToDB` and `EncodeAndUpload` collapse to
recording the header addressing exactly as the source writes it
(`rapBatchControlInfoRap.sender` from the `sender` argument,
`rapBatchControlInfoRap.recipient` from the `recipient` argument,
`rapFileSequenceNumber` from the catalogue value) and returning the
combined load/encode/upload outcome `env.result`. -/
def CreateRAPFile (env : RapEnv) (sender recipient tapAvailableStamp fileTypeIndicator : String)
    (fileSequenceNumber : String) (code : ErrorCode) (ctx : List ErrorContext) :
    Int × RapEmission :=
  (env.result,
   { rapSender := sender
     rapRecipient := recipient
     rapFileSequenceNumber := env.rapSequenceNum
     tapAvailableStamp := tapAvailableStamp
     fileTypeIndicator := fileTypeIndicator
     fileSequenceNumber := fileSequenceNumber
     errorCode := code
     errorContext := ctx })

end RAPFile

namespace TAPValidator

/-- Embedding of `TAPValidator::BatchContainsTaxes`: nested loops over
`callEventDetails`, per-variant `basicServiceUsedList` /
`chargeInformationList` (each dereferenced without a null check), returning
true on the first `taxInformation != NULL`. -/
def BatchContainsTaxes (tb : TransferBatch) : Option Bool :=
  match tb.callEventDetails with
  | none => none
  | some ces =>
    anyO (fun ce =>
      match ce with
      | .mobileOriginatedCall bsul =>
        match bsul with
        | none => none
        | some l =>
          anyO (fun bsu =>
            match bsu.chargeInformationList with
            | none => none
            | some cil => anyO (fun ci => some ci.taxInformation.isSome) cil) l
      | .mobileTerminatedCall bsul =>
        match bsul with
        | none => none
        | some l =>
          anyO (fun bsu =>
            match bsu.chargeInformationList with
            | none => none
            | some cil => anyO (fun ci => some ci.taxInformation.isSome) cil) l
      | .gprsCall g =>
        match g with
        | none => none
        | some gg =>
          match gg.chargeInformationList with
          | none => none
          | some cil => anyO (fun ci => some ci.taxInformation.isSome) cil
      | .otherEvent => some false) ces

/-- Embedding of `TAPValidator::BatchContainsDiscounts` (symmetric to
`BatchContainsTaxes` with `discountInformation`). -/
def BatchContainsDiscounts (tb : TransferBatch) : Option Bool :=
  match tb.callEventDetails with
  | none => none
  | some ces =>
    anyO (fun ce =>
      match ce with
      | .mobileOriginatedCall bsul =>
        match bsul with
        | none => none
        | some l =>
          anyO (fun bsu =>
            match bsu.chargeInformationList with
            | none => none
            | some cil => anyO (fun ci => some ci.discountInformation.isSome) cil) l
      | .mobileTerminatedCall bsul =>
        match bsul with
        | none => none
        | some l =>
          anyO (fun bsu =>
            match bsu.chargeInformationList with
            | none => none
            | some cil => anyO (fun ci => some ci.discountInformation.isSome) cil) l
      | .gprsCall g =>
        match g with
        | none => none
        | some gg =>
          match gg.chargeInformationList with
          | none => none
          | some cil => anyO (fun ci => some ci.discountInformation.isSome) cil
      | .otherEvent => some false) ces

/-- Embedding of `TAPValidator::ChargeInfoContainsPositiveCharges`:
`tapPower = pow(10, *accountingInfo->tapDecimalPlaces)` and
`OctetStr2Int64(*charge) / tapPower > 0` per charge detail. The double
division by the positive power of ten is modelled exactly over `ℚ`. -/
def ChargeInfoContainsPositiveCharges (tb : TransferBatch) (chargeInfo : ChargeInformation) :
    Option Bool :=
  match tb.accountingInfo with
  | none => none
  | some acc =>
    match acc.tapDecimalPlaces with
    | none => none
    | some tdp =>
      match chargeInfo.chargeDetailList with
      | none => none
      | some cdl =>
        anyO (fun cd =>
          match cd.charge with
          | none => none
          | some c => some (decide (0 < (c : ℚ) / 10 ^ tdp))) cdl

/-- Embedding of `TAPValidator::BatchContainsPositiveCharges`. -/
def BatchContainsPositiveCharges (tb : TransferBatch) : Option Bool :=
  match tb.callEventDetails with
  | none => none
  | some ces =>
    anyO (fun ce =>
      match ce with
      | .mobileOriginatedCall bsul =>
        match bsul with
        | none => none
        | some l =>
          anyO (fun bsu =>
            match bsu.chargeInformationList with
            | none => none
            | some cil => anyO (fun ci => ChargeInfoContainsPositiveCharges tb ci) cil) l
      | .mobileTerminatedCall bsul =>
        match bsul with
        | none => none
        | some l =>
          anyO (fun bsu =>
            match bsu.chargeInformationList with
            | none => none
            | some cil => anyO (fun ci => ChargeInfoContainsPositiveCharges tb ci) cil) l
      | .gprsCall g =>
        match g with
        | none => none
        | some gg =>
          match gg.chargeInformationList with
          | none => none
          | some cil => anyO (fun ci => ChargeInfoContainsPositiveCharges tb ci) cil
      | .otherEvent => some false) ces

/-- Embedding of `TAPValidator::CreateTransferBatchRAPFile`: reads
`batchControlInfo->fileSequenceNumber`, asserts and dereferences `sender`,
`recipient` and `fileAvailableTimeStamp->localTimeStamp`, builds the
one-level error context `[TransferBatch]` and calls
`RAPFile::CreateRAPFile`. -/
def CreateTransferBatchRAPFile (env : RapEnv) (tags0 : StructDescriptor → Nat)
    (tb : TransferBatch) (errorCode : ErrorCode) : Option (Int × RapEmission) :=
  match tb.batchControlInfo with
  | none => none
  | some bci =>
    match bci.fileSequenceNumber, bci.sender, bci.recipient, bci.fileAvailableTimeStamp with
    | some fsn, some s, some r, some fats =>
      some (RAPFile.CreateRAPFile env s r fats.localTimeStamp (bci.fileTypeIndicator.getD "")
        fsn errorCode
        [{ pathItemId := tags0 .TransferBatchD >>> 2, itemLevel := 1 }])
    | _, _, _, _ => none

/-- Embedding of `TAPValidator::CreateBatchControlInfoRAPFile` (the mirror
copies only alias header fields and are severed again before the free; the
error context is `[TransferBatch, BatchControlInfo]`). -/
def CreateBatchControlInfoRAPFile (env : RapEnv) (tags0 : StructDescriptor → Nat)
    (tb : TransferBatch) (errorCode : ErrorCode) : Option (Int × RapEmission) :=
  match tb.batchControlInfo with
  | none => none
  | some bci =>
    match bci.fileSequenceNumber, bci.sender, bci.recipient, bci.fileAvailableTimeStamp with
    | some fsn, some s, some r, some fats =>
      some (RAPFile.CreateRAPFile env s r fats.localTimeStamp (bci.fileTypeIndicator.getD "")
        fsn errorCode
        [{ pathItemId := tags0 .TransferBatchD >>> 2, itemLevel := 1 },
         { pathItemId := tags0 .BatchControlInfoD >>> 2, itemLevel := 2 }])
    | _, _, _, _ => none

/-- Embedding of `TAPValidator::CreateAccountingInfoRAPFile`: dereferences
`accountingInfo` for the mirror copy, builds the context
`[TransferBatch, AccountingInfo]` plus an optional third level from the
supplied descriptor. -/
def CreateAccountingInfoRAPFile (env : RapEnv) (tags0 : StructDescriptor → Nat)
    (tb : TransferBatch) (errorCode : ErrorCode) (level3item : Option StructDescriptor) :
    Option (Int × RapEmission) :=
  match tb.accountingInfo with
  | none => none
  | some _ =>
    match tb.batchControlInfo with
    | none => none
    | some bci =>
      match bci.fileSequenceNumber, bci.sender, bci.recipient, bci.fileAvailableTimeStamp with
      | some fsn, some s, some r, some fats =>
        some (RAPFile.CreateRAPFile env s r fats.localTimeStamp (bci.fileTypeIndicator.getD "")
          fsn errorCode
          ([{ pathItemId := tags0 .TransferBatchD >>> 2, itemLevel := 1 },
            { pathItemId := tags0 .AccountingInfoD >>> 2, itemLevel := 2 }] ++
           (match level3item with
            | some d => [{ pathItemId := tags0 d >>> 2, itemLevel := 3 }]
            | none => [])))
      | _, _, _, _ => none

/-- Embedding of `TAPValidator::CreateNetworkInfoRAPFile` (context
`[TransferBatch, NetworkInfo]`). -/
def CreateNetworkInfoRAPFile (env : RapEnv) (tags0 : StructDescriptor → Nat)
    (tb : TransferBatch) (errorCode : ErrorCode) : Option (Int × RapEmission) :=
  match tb.networkInfo with
  | none => none
  | some _ =>
    match tb.batchControlInfo with
    | none => none
    | some bci =>
      match bci.fileSequenceNumber, bci.sender, bci.recipient, bci.fileAvailableTimeStamp with
      | some fsn, some s, some r, some fats =>
        some (RAPFile.CreateRAPFile env s r fats.localTimeStamp (bci.fileTypeIndicator.getD "")
          fsn errorCode
          [{ pathItemId := tags0 .TransferBatchD >>> 2, itemLevel := 1 },
           { pathItemId := tags0 .NetworkInfoD >>> 2, itemLevel := 2 }])
      | _, _, _, _ => none

/-- Embedding of `TAPValidator::CreateAuditControlInfoRAPFile` (context
`[TransferBatch, AuditControlInfo]` plus an optional third level; the
source asserts `sender` twice but still dereferences `recipient`, so the
presence requirements are the same as for the other scopes). -/
def CreateAuditControlInfoRAPFile (env : RapEnv) (tags0 : StructDescriptor → Nat)
    (tb : TransferBatch) (errorCode : ErrorCode) (level3item : Option StructDescriptor) :
    Option (Int × RapEmission) :=
  match tb.auditControlInfo with
  | none => none
  | some _ =>
    match tb.batchControlInfo with
    | none => none
    | some bci =>
      match bci.fileSequenceNumber, bci.sender, bci.recipient, bci.fileAvailableTimeStamp with
      | some fsn, some s, some r, some fats =>
        some (RAPFile.CreateRAPFile env s r fats.localTimeStamp (bci.fileTypeIndicator.getD "")
          fsn errorCode
          ([{ pathItemId := tags0 .TransferBatchD >>> 2, itemLevel := 1 },
            { pathItemId := tags0 .AuditControlInfoD >>> 2, itemLevel := 2 }] ++
           (match level3item with
            | some d => [{ pathItemId := tags0 d >>> 2, itemLevel := 3 }]
            | none => [])))
      | _, _, _, _ => none

/-- Embedding of `return (createRapRes >= 0 ? FATAL_ERROR :
VALIDATION_IMPOSSIBLE)` after a RAP-creation call. -/
def rapStep (o : Option (Int × RapEmission)) :
    Option (TAPValidationResult × Option RapEmission) :=
  match o with
  | none => none
  | some (res, em) =>
    some (if 0 ≤ res then .FATAL_ERROR else .VALIDATION_IMPOSSIBLE, some em)

/-- Embedding of the branches of `ValidateTransferBatch` that call
`CreateTransferBatchRAPFile` but `return FATAL_ERROR` ignoring its result. -/
def rapStepIgnore (o : Option (Int × RapEmission)) :
    Option (TAPValidationResult × Option RapEmission) :=
  match o with
  | none => none
  | some (_res, em) => some (.FATAL_ERROR, some em)

/-- Embedding of `TAPValidator::ValidateBatchControlInfo`. -/
def ValidateBatchControlInfo (env : RapEnv) (tags0 : StructDescriptor → Nat)
    (tb : TransferBatch) : Option (TAPValidationResult × Option RapEmission) :=
  match tb.batchControlInfo with
  | none => none
  | some bci =>
    if bci.sender.isNone || bci.recipient.isNone || bci.fileSequenceNumber.isNone then
      some (.VALIDATION_IMPOSSIBLE, none)
    else if bci.fileAvailableTimeStamp.isNone then
      rapStep (CreateBatchControlInfoRAPFile env tags0 tb .BATCH_CTRL_FILE_AVAIL_TIMESTAMP_MISSING)
    else if bci.specificationVersionNumber.isNone then
      rapStep (CreateBatchControlInfoRAPFile env tags0 tb .BATCH_CTRL_SPEC_VERSION_MISSING)
    else if bci.transferCutOffTimeStamp.isNone then
      rapStep (CreateBatchControlInfoRAPFile env tags0 tb .BATCH_CTRL_TRANSFER_CUTOFF_MISSING)
    else some (.TAP_VALID, none)

/-- Embedding of the `currencyConversionInfo` loop of
`TAPValidator::ValidateAccountingInfo`; `seen` is the
`set<ExchangeRateCode_t> exchangeRateCodes` accumulated so far. -/
def ValidateCurrencyConversion (env : RapEnv) (tags0 : StructDescriptor → Nat)
    (tb : TransferBatch) :
    List CurrencyConversion → List Int → Option (TAPValidationResult × Option RapEmission)
  | [], _ => some (.TAP_VALID, none)
  | e :: rest, seen =>
    match e.exchangeRateCode with
    | none =>
      rapStep (CreateAccountingInfoRAPFile env tags0 tb .CURRENCY_CONVERSION_EXRATE_CODE_MISSING
        (some .CurrencyConversionListD))
    | some code =>
      if e.numberOfDecimalPlaces.isNone then
        rapStep (CreateAccountingInfoRAPFile env tags0 tb
          .CURRENCY_CONVERSION_NUM_OF_DEC_PLACES_MISSING (some .CurrencyConversionListD))
      else if e.exchangeRate.isNone then
        rapStep (CreateAccountingInfoRAPFile env tags0 tb
          .CURRENCY_CONVERSION_EXCHANGE_RATE_MISSING (some .CurrencyConversionListD))
      else if code ∈ seen then
        rapStep (CreateAccountingInfoRAPFile env tags0 tb
          .CURRENCY_CONVERSION_EXRATE_CODE_DUPLICATION (some .CurrencyConversionListD))
      else ValidateCurrencyConversion env tags0 tb rest (code :: seen)

/-- Embedding of `TAPValidator::ValidateAccountingInfo`. The `&&` of the
source short-circuits: `BatchContainsTaxes` is only evaluated when
`taxation` is absent, and similarly for the other two predicates. -/
def ValidateAccountingInfo (env : RapEnv) (tags0 : StructDescriptor → Nat)
    (tb : TransferBatch) : Option (TAPValidationResult × Option RapEmission) :=
  match tb.accountingInfo with
  | none => none
  | some acc =>
    if acc.localCurrency.isNone then
      rapStep (CreateAccountingInfoRAPFile env tags0 tb .ACCOUNTING_LOCAL_CURRENCY_MISSING none)
    else if acc.tapDecimalPlaces.isNone then
      rapStep (CreateAccountingInfoRAPFile env tags0 tb .ACCOUNTING_TAP_DECIMAL_PLACES_MISSING none)
    else
      match (if acc.taxation.isSome then some false else BatchContainsTaxes tb) with
      | none => none
      | some true =>
        rapStep (CreateAccountingInfoRAPFile env tags0 tb .ACCOUNTING_TAXATION_MISSING none)
      | some false =>
        match (if acc.discounting.isSome then some false else BatchContainsDiscounts tb) with
        | none => none
        | some true =>
          rapStep (CreateAccountingInfoRAPFile env tags0 tb .ACCOUNTING_DISCOUNTING_MISSING none)
        | some false =>
          match (if acc.currencyConversionInfo.isSome then some false
                 else BatchContainsPositiveCharges tb) with
          | none => none
          | some true =>
            rapStep (CreateAccountingInfoRAPFile env tags0 tb
              .ACCOUNTING_CURRENCY_CONVERSION_MISSING none)
          | some false =>
            match acc.currencyConversionInfo with
            | some entries => ValidateCurrencyConversion env tags0 tb entries []
            | none => some (.TAP_VALID, none)

/-- Embedding of `TAPValidator::ValidateNetworkInfo`. -/
def ValidateNetworkInfo (env : RapEnv) (tags0 : StructDescriptor → Nat)
    (tb : TransferBatch) : Option (TAPValidationResult × Option RapEmission) :=
  match tb.networkInfo with
  | none => none
  | some ni =>
    if ni.utcTimeOffsetInfo.isNone then
      rapStep (CreateNetworkInfoRAPFile env tags0 tb .NETWORK_UTC_TIMEOFFSET_MISSING)
    else if ni.recEntityInfo.isNone then
      rapStep (CreateNetworkInfoRAPFile env tags0 tb .NETWORK_REC_ENTITY_MISSING)
    else some (.TAP_VALID, none)

/-- Embedding of `TAPValidator::ValidateAuditControlInfo`; the count check
dereferences `callEventDetails` without a null check. -/
def ValidateAuditControlInfo (env : RapEnv) (tags0 : StructDescriptor → Nat)
    (tb : TransferBatch) : Option (TAPValidationResult × Option RapEmission) :=
  match tb.auditControlInfo with
  | none => none
  | some aud =>
    if aud.totalCharge.isNone then
      rapStep (CreateAuditControlInfoRAPFile env tags0 tb .AUDIT_CTRL_TOTAL_CHARGE_MISSING none)
    else if aud.totalTaxValue.isNone then
      rapStep (CreateAuditControlInfoRAPFile env tags0 tb .AUDIT_CTRL_TOTAL_TAX_VALUE_MISSING none)
    else if aud.totalDiscountValue.isNone then
      rapStep (CreateAuditControlInfoRAPFile env tags0 tb .AUDIT_CTRL_TOTAL_DISCOUNT_MISSING none)
    else
      match aud.callEventDetailsCount with
      | none =>
        rapStep (CreateAuditControlInfoRAPFile env tags0 tb .AUDIT_CTRL_CALL_COUNT_MISSING none)
      | some cnt =>
        match tb.callEventDetails with
        | none => none
        | some ces =>
          if cnt ≠ (ces.length : Int) then
            rapStep (CreateAuditControlInfoRAPFile env tags0 tb .CALL_COUNT_MISMATCH
              (some .CallEventDetailsCountD))
          else some (.TAP_VALID, none)

/-- Embedding of `TAPValidator::ValidateTransferBatch`: the four
section-presence checks first (the result of the RAP creation is only
inspected for the `batchControlInfo` branch), then the four section
validators in order, short-circuiting on the first non-valid result. -/
def ValidateTransferBatch (env : RapEnv) (tags0 : StructDescriptor → Nat)
    (tb : TransferBatch) : Option (TAPValidationResult × Option RapEmission) :=
  match tb.batchControlInfo with
  | none => rapStep (CreateTransferBatchRAPFile env tags0 tb .TF_BATCH_BATCH_CONTROL_INFO_MISSING)
  | some _ =>
    if tb.accountingInfo.isNone then
      rapStepIgnore (CreateTransferBatchRAPFile env tags0 tb .TF_BATCH_ACCOUNTING_INFO_MISSING)
    else if tb.networkInfo.isNone then
      rapStepIgnore (CreateTransferBatchRAPFile env tags0 tb .TF_BATCH_NETWORK_INFO_MISSING)
    else if tb.auditControlInfo.isNone then
      rapStepIgnore (CreateTransferBatchRAPFile env tags0 tb .TF_BATCH_AUDIT_CONTROL_INFO_MISSING)
    else
      match ValidateBatchControlInfo env tags0 tb with
      | none => none
      | some (r1, e1) =>
        if r1 ≠ .TAP_VALID then some (r1, e1)
        else
          match ValidateAccountingInfo env tags0 tb with
          | none => none
          | some (r2, e2) =>
            if r2 ≠ .TAP_VALID then some (r2, e2)
            else
              match ValidateNetworkInfo env tags0 tb with
              | none => none
              | some (r3, e3) =>
                if r3 ≠ .TAP_VALID then some (r3, e3)
                else
                  match ValidateAuditControlInfo env tags0 tb with
                  | none => none
                  | some (r4, e4) =>
                    if r4 ≠ .TAP_VALID then some (r4, e4)
                    else some (.TAP_VALID, none)

/-- Embedding of `TAPValidator::ValidateNotification`. -/
def ValidateNotification (n : Notification) :
    Option (TAPValidationResult × Option RapEmission) :=
  if n.sender.isNone || n.recipient.isNone || n.fileSequenceNumber.isNone then
    some (.VALIDATION_IMPOSSIBLE, none)
  else some (.TAP_VALID, none)

/-- Embedding of `TAPValidator::Validate`: dispatch on the decoded
DataInterChange variant. -/
def Validate (env : RapEnv) (tags0 : StructDescriptor → Nat) (d : DataInterChange) :
    Option (TAPValidationResult × Option RapEmission) :=
  match d with
  | .transferBatch tb => ValidateTransferBatch env tags0 tb
  | .notification n => ValidateNotification n
  | .otherVariant => some (.VALIDATION_IMPOSSIBLE, none)

end TAPValidator

open TAPValidator

/-! ## Spec-side definitions

Definitions in this section follow the wording of the specification (they are
the comparison side of the refinement claims); each doc comment says so. -/

/-- Big-endian unsigned interpretation of an octet string, the decoding side
of property 6 of the spec. -/
def decodeBE (bs : List Int) : Int := bs.foldl (fun a b => 256 * a + b) 0

/-- ChargeInformation records reachable from one call event, following the
spec's walk (MO/MT: basicServiceUsedList → chargeInformationList; GPRS:
gprsServiceUsed → chargeInformationList) with missing lists read as empty. -/
def chargeInfosOfCE (ce : CallEventDetail) : List ChargeInformation :=
  match ce with
  | .mobileOriginatedCall bsul =>
    (bsul.getD []).flatMap fun bsu => bsu.chargeInformationList.getD []
  | .mobileTerminatedCall bsul =>
    (bsul.getD []).flatMap fun bsu => bsu.chargeInformationList.getD []
  | .gprsCall g =>
    match g with
    | some gg => gg.chargeInformationList.getD []
    | none => []
  | .otherEvent => []

/-- All ChargeInformation records reachable from a TransferBatch, following
the spec's walk with missing lists read as empty. -/
def reachableChargeInformation (tb : TransferBatch) : List ChargeInformation :=
  (tb.callEventDetails.getD []).flatMap chargeInfosOfCE

/-- Presence of every intermediate list dereferenced by the tax/discount walk
of one call event. -/
def ceListsOk (ce : CallEventDetail) : Bool :=
  match ce with
  | .mobileOriginatedCall bsul =>
    bsul.isSome && (bsul.getD []).all fun bsu => bsu.chargeInformationList.isSome
  | .mobileTerminatedCall bsul =>
    bsul.isSome && (bsul.getD []).all fun bsu => bsu.chargeInformationList.isSome
  | .gprsCall g =>
    match g with
    | some gg => gg.chargeInformationList.isSome
    | none => false
  | .otherEvent => true

/-- Presence of every pointer dereferenced by `BatchContainsTaxes` and
`BatchContainsDiscounts`. -/
def taxWalkOk (tb : TransferBatch) : Bool :=
  tb.callEventDetails.isSome && (tb.callEventDetails.getD []).all ceListsOk

/-- Presence of every pointer additionally dereferenced by
`BatchContainsPositiveCharges`. -/
def chargeWalkOk (tb : TransferBatch) : Bool :=
  taxWalkOk tb &&
  (match tb.accountingInfo with
   | some acc => acc.tapDecimalPlaces.isSome
   | none => false) &&
  (reachableChargeInformation tb).all fun ci =>
    ci.chargeDetailList.isSome && (ci.chargeDetailList.getD []).all fun cd => cd.charge.isSome

/-- Modelled from the spec: the first-in-order matching rule of the
`currencyConversionInfo` entry checks of §4.4, `prev` being the entries
before the current one ("exchangeRateCode already seen in earlier
entries"). This is the comparison side for claim C4. -/
def specCCFirstError : List CurrencyConversion → List CurrencyConversion → Option ErrorCode
  | [], _ => none
  | e :: rest, prev =>
    if e.exchangeRateCode.isNone then some .CURRENCY_CONVERSION_EXRATE_CODE_MISSING
    else if e.numberOfDecimalPlaces.isNone then
      some .CURRENCY_CONVERSION_NUM_OF_DEC_PLACES_MISSING
    else if e.exchangeRate.isNone then some .CURRENCY_CONVERSION_EXCHANGE_RATE_MISSING
    else if prev.any (fun p => p.exchangeRateCode == e.exchangeRateCode) then
      some .CURRENCY_CONVERSION_EXRATE_CODE_DUPLICATION
    else specCCFirstError rest (prev ++ [e])

/-- Modelled from the spec: the error code of the first-in-order matching
accounting rule of §4.4 (the comparison side for claim C4), `none` when no
rule matches. -/
def specAccountingFirstError (tb : TransferBatch) : Option ErrorCode :=
  match tb.accountingInfo with
  | none => none
  | some acc =>
    if acc.localCurrency.isNone then some .ACCOUNTING_LOCAL_CURRENCY_MISSING
    else if acc.tapDecimalPlaces.isNone then some .ACCOUNTING_TAP_DECIMAL_PLACES_MISSING
    else if acc.taxation.isNone ∧ BatchContainsTaxes tb = some true then
      some .ACCOUNTING_TAXATION_MISSING
    else if acc.discounting.isNone ∧ BatchContainsDiscounts tb = some true then
      some .ACCOUNTING_DISCOUNTING_MISSING
    else if acc.currencyConversionInfo.isNone ∧ BatchContainsPositiveCharges tb = some true then
      some .ACCOUNTING_CURRENCY_CONVERSION_MISSING
    else specCCFirstError (acc.currencyConversionInfo.getD []) []

/-- Context list generated by an outermost-to-innermost descriptor path:
the i-th element carries `itemLevel = i` (1-based) and the descriptor's
first tag with the two low bits discarded. -/
def ctxLevels (tags0 : StructDescriptor → Nat) (path : List StructDescriptor) :
    List ErrorContext :=
  (path.zip (List.range' 1 path.length)).map fun p =>
    { pathItemId := tags0 p.1 >>> 2, itemLevel := p.2 }

/-- An error context is well formed when it is `ctxLevels` of some non-empty
descriptor path rooted at TransferBatch (claim C5). -/
def wellFormedContext (tags0 : StructDescriptor → Nat) (ctx : List ErrorContext) : Prop :=
  ∃ path, path ≠ [] ∧ path.headI = StructDescriptor.TransferBatchD ∧ ctx = ctxLevels tags0 path

/-- Batch-control rules of §4.4 as a presence condition. -/
def bciRulesB (bci : BatchControlInfo) : Bool :=
  bci.sender.isSome && bci.recipient.isSome && bci.fileSequenceNumber.isSome &&
  bci.fileAvailableTimeStamp.isSome && bci.specificationVersionNumber.isSome &&
  bci.transferCutOffTimeStamp.isSome

/-- Accounting rules of §4.4 as a condition on the batch. -/
def accRulesB (tb : TransferBatch) (acc : AccountingInfo) : Bool :=
  acc.localCurrency.isSome && acc.tapDecimalPlaces.isSome &&
  (acc.taxation.isSome || (BatchContainsTaxes tb == some false)) &&
  (acc.discounting.isSome || (BatchContainsDiscounts tb == some false)) &&
  (match acc.currencyConversionInfo with
   | some entries =>
     (entries.all fun e =>
       e.exchangeRateCode.isSome && e.numberOfDecimalPlaces.isSome && e.exchangeRate.isSome) &&
     decide (entries.filterMap (fun e => e.exchangeRateCode)).Nodup
   | none => BatchContainsPositiveCharges tb == some false)

/-- Network rules of §4.4 as a presence condition. -/
def networkRulesB (ni : NetworkInfo) : Bool :=
  ni.utcTimeOffsetInfo.isSome && ni.recEntityInfo.isSome

/-- Audit-control rules of §4.4 as a condition. -/
def auditRulesB (aud : AuditControlInfo) (ces : List CallEventDetail) : Bool :=
  aud.totalCharge.isSome && aud.totalTaxValue.isSome && aud.totalDiscountValue.isSome &&
  (aud.callEventDetailsCount == some (ces.length : Int))

/-- Conjunction of every validation rule of §4 on a TransferBatch
(the hypothesis of the soundness claim C8). -/
def rulesHoldB (tb : TransferBatch) : Bool :=
  match tb.batchControlInfo, tb.accountingInfo, tb.networkInfo, tb.auditControlInfo,
        tb.callEventDetails with
  | some bci, some acc, some ni, some aud, some ces =>
    bciRulesB bci && accRulesB tb acc && networkRulesB ni && auditRulesB aud ces
  | _, _, _, _, _ => false

/-! ## Concrete fixtures for witnesses and counterexamples -/

/-- Concrete descriptor-tag assignment used by closed witness theorems (the
actual codec values are irrelevant to every claim, which quantify over
`tags0`). -/
def tags0c : StructDescriptor → Nat
  | .TransferBatchD => 4
  | .BatchControlInfoD => 16
  | .AccountingInfoD => 20
  | .NetworkInfoD => 24
  | .AuditControlInfoD => 60
  | .CurrencyConversionListD => 80
  | .CallEventDetailsCountD => 68

/-- External world where RAP production succeeds. -/
def env0 : RapEnv := { rapSequenceNum := "00001", result := 0 }

/-- External world where RAP production fails (negative outcome). -/
def envNeg : RapEnv := { rapSequenceNum := "00001", result := -1 }

/-- A fully populated BatchControlInfo with sender "AAA" and recipient
"BBB". -/
def bciFull : BatchControlInfo :=
  { sender := some "AAA"
    recipient := some "BBB"
    fileSequenceNumber := some "00031"
    fileAvailableTimeStamp := some { localTimeStamp := "20200101120000", utcTimeOffset := "+0300" }
    fileCreationTimeStamp := none
    transferCutOffTimeStamp := some { localTimeStamp := "20200102120000", utcTimeOffset := "+0300" }
    specificationVersionNumber := some 3
    releaseVersionNumber := some 12
    fileTypeIndicator := none
    rapFileSequenceNumber := none
    operatorSpecInformation := none }

def accFull : AccountingInfo :=
  { taxation := some ()
    discounting := some ()
    localCurrency := some "RUB"
    tapCurrency := none
    currencyConversionInfo := some [{ exchangeRateCode := some 1, numberOfDecimalPlaces := some 5,
                                      exchangeRate := some 10000 }]
    tapDecimalPlaces := some 2 }

def niFull : NetworkInfo := { utcTimeOffsetInfo := some (), recEntityInfo := some () }

def audFull : AuditControlInfo :=
  { earliestCallTimeStamp := none
    latestCallTimeStamp := none
    totalCharge := some 0
    totalTaxValue := some 0
    totalDiscountValue := some 0
    totalChargeRefund := none
    totalTaxRefund := none
    totalDiscountRefund := none
    totalAdvisedChargeValueList := none
    callEventDetailsCount := some 0
    operatorSpecInformation := none }

/-- A TransferBatch satisfying every rule of §4. -/
def tbValid : TransferBatch :=
  { batchControlInfo := some bciFull
    accountingInfo := some accFull
    networkInfo := some niFull
    auditControlInfo := some audFull
    callEventDetails := some [] }

/-- tbValid with `specificationVersionNumber` removed: fires
BATCH_CTRL_SPEC_VERSION_MISSING. -/
def tbSpecVersionMissing : TransferBatch :=
  { tbValid with batchControlInfo := some { bciFull with specificationVersionNumber := none } }

/-- tbValid with the whole accountingInfo section removed. -/
def tbAccountingMissing : TransferBatch := { tbValid with accountingInfo := none }

/-- accountingInfo removed and sender removed: the addressing triple is
incomplete while a section check fires first. -/
def tbTripleBrokenAccountingMissing : TransferBatch :=
  { tbValid with batchControlInfo := some { bciFull with sender := none }
                 accountingInfo := none }

/-- tbValid with `callEventDetails` absent (the predicate evaluators
dereference it unconditionally). -/
def tbNoCallList : TransferBatch := { tbValid with callEventDetails := none }

/-- tbValid with `localCurrency` removed: fires
ACCOUNTING_LOCAL_CURRENCY_MISSING. -/
def tbLocalCurrencyMissing : TransferBatch :=
  { tbValid with accountingInfo := some { accFull with localCurrency := none } }

/-- Emission produced on tbSpecVersionMissing: header addressing copied
straight from the TAP header (sender := TAP sender). -/
def emSpecVersionMissing : RapEmission :=
  { rapSender := "AAA"
    rapRecipient := "BBB"
    rapFileSequenceNumber := "00001"
    tapAvailableStamp := "20200101120000"
    fileTypeIndicator := ""
    fileSequenceNumber := "00031"
    errorCode := .BATCH_CTRL_SPEC_VERSION_MISSING
    errorContext := [{ pathItemId := 1, itemLevel := 1 }, { pathItemId := 4, itemLevel := 2 }] }

def ccEntry : CurrencyConversion :=
  { exchangeRateCode := some 1, numberOfDecimalPlaces := some 5, exchangeRate := some 10000 }

def bciNoSender : BatchControlInfo := { bciFull with sender := none }

def tbNoSender : TransferBatch := { tbValid with batchControlInfo := some bciNoSender }

def emAccountingMissing : RapEmission :=
  { rapSender := "AAA"
    rapRecipient := "BBB"
    rapFileSequenceNumber := "00001"
    tapAvailableStamp := "20200101120000"
    fileTypeIndicator := ""
    fileSequenceNumber := "00031"
    errorCode := .TF_BATCH_ACCOUNTING_INFO_MISSING
    errorContext := [{ pathItemId := 1, itemLevel := 1 }] }

def emLocalCurrencyMissing : RapEmission :=
  { rapSender := "AAA"
    rapRecipient := "BBB"
    rapFileSequenceNumber := "00001"
    tapAvailableStamp := "20200101120000"
    fileTypeIndicator := ""
    fileSequenceNumber := "00031"
    errorCode := .ACCOUNTING_LOCAL_CURRENCY_MISSING
    errorContext := [{ pathItemId := 1, itemLevel := 1 }, { pathItemId := 5, itemLevel := 2 }] }

def ciW : ChargeInformation :=
  { taxInformation := some ()
    discountInformation := none
    chargeDetailList := some [{ charge := some 500 }] }

def cesWalk : List CallEventDetail :=
  [.mobileOriginatedCall (some [{ chargeInformationList := some [ciW] }]),
   .gprsCall (some { chargeInformationList := some [] }),
   .otherEvent]

def tbWalk : TransferBatch := { tbValid with callEventDetails := some cesWalk }

theorem rapStep_eq_some {o : Option (Int × RapEmission)} {r : TAPValidationResult}
    {em' : Option RapEmission} (h : rapStep o = some (r, em')) :
    ∃ res em, o = some (res, em) ∧ em' = some em ∧
      r = (if 0 ≤ res then .FATAL_ERROR else .VALIDATION_IMPOSSIBLE) := by
  cases o with
  | none => simp [rapStep] at h
  | some p =>
    obtain ⟨res, em⟩ := p
    simp [rapStep] at h
    exact ⟨res, em, rfl, h.2.symm, h.1.symm⟩

theorem rapStep_ne_valid {o : Option (Int × RapEmission)} {em' : Option RapEmission} :
    rapStep o ≠ some (.TAP_VALID, em') := by
  intro h
  obtain ⟨res, em, _, _, hr⟩ := rapStep_eq_some h
  by_cases h0 : 0 ≤ res <;> simp [h0] at hr

theorem rapStep_fatal {o : Option (Int × RapEmission)} {em' : Option RapEmission}
    (h : rapStep o = some (.FATAL_ERROR, em')) :
    ∃ res em, o = some (res, em) ∧ 0 ≤ res ∧ em' = some em := by
  obtain ⟨res, em, ho, hem, hr⟩ := rapStep_eq_some h
  by_cases h0 : 0 ≤ res
  · exact ⟨res, em, ho, h0, hem⟩
  · simp [h0] at hr

theorem rapStepIgnore_eq_some {o : Option (Int × RapEmission)} {r : TAPValidationResult}
    {em' : Option RapEmission} (h : rapStepIgnore o = some (r, em')) :
    r = .FATAL_ERROR ∧ ∃ res em, o = some (res, em) ∧ em' = some em := by
  cases o with
  | none => simp [rapStepIgnore] at h
  | some p =>
    obtain ⟨res, em⟩ := p
    simp [rapStepIgnore] at h
    exact ⟨h.1.symm, res, em, rfl, h.2.symm⟩

theorem CreateTransferBatchRAPFile_some {env : RapEnv} {tags0 : StructDescriptor → Nat}
    {tb : TransferBatch} {code : ErrorCode} {res : Int} {em : RapEmission}
    (h : CreateTransferBatchRAPFile env tags0 tb code = some (res, em)) :
    res = env.result ∧ em.errorCode = code ∧
    em.rapFileSequenceNumber = env.rapSequenceNum ∧
    em.errorContext = [{ pathItemId := tags0 .TransferBatchD >>> 2, itemLevel := 1 }] ∧
    ∃ bci, tb.batchControlInfo = some bci ∧
      bci.sender = some em.rapSender ∧ bci.recipient = some em.rapRecipient := by
  unfold CreateTransferBatchRAPFile at h
  split at h
  · exact Option.noConfusion h
  · rename_i bci hbci
    split at h
    · rename_i fsn s r fats hfsn hs hr hfats
      simp [RAPFile.CreateRAPFile] at h
      obtain ⟨hres, hem⟩ := h
      subst hres
      subst hem
      exact ⟨rfl, rfl, rfl, rfl, bci, hbci, by simp [hs], by simp [hr]⟩
    · exact Option.noConfusion h

theorem CreateBatchControlInfoRAPFile_some {env : RapEnv} {tags0 : StructDescriptor → Nat}
    {tb : TransferBatch} {code : ErrorCode} {res : Int} {em : RapEmission}
    (h : CreateBatchControlInfoRAPFile env tags0 tb code = some (res, em)) :
    res = env.result ∧ em.errorCode = code ∧
    em.rapFileSequenceNumber = env.rapSequenceNum ∧
    em.errorContext = [{ pathItemId := tags0 .TransferBatchD >>> 2, itemLevel := 1 },
                       { pathItemId := tags0 .BatchControlInfoD >>> 2, itemLevel := 2 }] ∧
    ∃ bci, tb.batchControlInfo = some bci ∧
      bci.sender = some em.rapSender ∧ bci.recipient = some em.rapRecipient := by
  unfold CreateBatchControlInfoRAPFile at h
  split at h
  · exact Option.noConfusion h
  · rename_i bci hbci
    split at h
    · rename_i fsn s r fats hfsn hs hr hfats
      simp [RAPFile.CreateRAPFile] at h
      obtain ⟨hres, hem⟩ := h
      subst hres
      subst hem
      exact ⟨rfl, rfl, rfl, rfl, bci, hbci, by simp [hs], by simp [hr]⟩
    · exact Option.noConfusion h

theorem CreateAccountingInfoRAPFile_some {env : RapEnv} {tags0 : StructDescriptor → Nat}
    {tb : TransferBatch} {code : ErrorCode} {level3item : Option StructDescriptor}
    {res : Int} {em : RapEmission}
    (h : CreateAccountingInfoRAPFile env tags0 tb code level3item = some (res, em)) :
    res = env.result ∧ em.errorCode = code ∧
    em.rapFileSequenceNumber = env.rapSequenceNum ∧
    em.errorContext = [{ pathItemId := tags0 .TransferBatchD >>> 2, itemLevel := 1 },
                       { pathItemId := tags0 .AccountingInfoD >>> 2, itemLevel := 2 }] ++
      (match level3item with
       | some d => [{ pathItemId := tags0 d >>> 2, itemLevel := 3 }]
       | none => []) ∧
    ∃ bci, tb.batchControlInfo = some bci ∧
      bci.sender = some em.rapSender ∧ bci.recipient = some em.rapRecipient := by
  unfold CreateAccountingInfoRAPFile at h
  split at h
  · exact Option.noConfusion h
  · split at h
    · exact Option.noConfusion h
    · rename_i bci hbci
      split at h
      · rename_i fsn s r fats hfsn hs hr hfats
        simp [RAPFile.CreateRAPFile] at h
        obtain ⟨hres, hem⟩ := h
        subst hres
        subst hem
        refine ⟨rfl, rfl, rfl, by cases level3item <;> rfl, bci, hbci, by simp [hs], by simp [hr]⟩
      · exact Option.noConfusion h

theorem CreateNetworkInfoRAPFile_some {env : RapEnv} {tags0 : StructDescriptor → Nat}
    {tb : TransferBatch} {code : ErrorCode} {res : Int} {em : RapEmission}
    (h : CreateNetworkInfoRAPFile env tags0 tb code = some (res, em)) :
    res = env.result ∧ em.errorCode = code ∧
    em.rapFileSequenceNumber = env.rapSequenceNum ∧
    em.errorContext = [{ pathItemId := tags0 .TransferBatchD >>> 2, itemLevel := 1 },
                       { pathItemId := tags0 .NetworkInfoD >>> 2, itemLevel := 2 }] ∧
    ∃ bci, tb.batchControlInfo = some bci ∧
      bci.sender = some em.rapSender ∧ bci.recipient = some em.rapRecipient := by
  unfold CreateNetworkInfoRAPFile at h
  split at h
  · exact Option.noConfusion h
  · split at h
    · exact Option.noConfusion h
    · rename_i bci hbci
      split at h
      · rename_i fsn s r fats hfsn hs hr hfats
        simp [RAPFile.CreateRAPFile] at h
        obtain ⟨hres, hem⟩ := h
        subst hres
        subst hem
        exact ⟨rfl, rfl, rfl, rfl, bci, hbci, by simp [hs], by simp [hr]⟩
      · exact Option.noConfusion h

theorem CreateAuditControlInfoRAPFile_some {env : RapEnv} {tags0 : StructDescriptor → Nat}
    {tb : TransferBatch} {code : ErrorCode} {level3item : Option StructDescriptor}
    {res : Int} {em : RapEmission}
    (h : CreateAuditControlInfoRAPFile env tags0 tb code level3item = some (res, em)) :
    res = env.result ∧ em.errorCode = code ∧
    em.rapFileSequenceNumber = env.rapSequenceNum ∧
    em.errorContext = [{ pathItemId := tags0 .TransferBatchD >>> 2, itemLevel := 1 },
                       { pathItemId := tags0 .AuditControlInfoD >>> 2, itemLevel := 2 }] ++
      (match level3item with
       | some d => [{ pathItemId := tags0 d >>> 2, itemLevel := 3 }]
       | none => []) ∧
    ∃ bci, tb.batchControlInfo = some bci ∧
      bci.sender = some em.rapSender ∧ bci.recipient = some em.rapRecipient := by
  unfold CreateAuditControlInfoRAPFile at h
  split at h
  · exact Option.noConfusion h
  · split at h
    · exact Option.noConfusion h
    · rename_i bci hbci
      split at h
      · rename_i fsn s r fats hfsn hs hr hfats
        simp [RAPFile.CreateRAPFile] at h
        obtain ⟨hres, hem⟩ := h
        subst hres
        subst hem
        refine ⟨rfl, rfl, rfl, by cases level3item <;> rfl, bci, hbci, by simp [hs], by simp [hr]⟩
      · exact Option.noConfusion h

theorem ValidateCurrencyConversion_fatal {env : RapEnv} {tags0 : StructDescriptor → Nat}
    {tb : TransferBatch} :
    ∀ (entries : List CurrencyConversion) (seen : List Int) {em' : Option RapEmission},
    ValidateCurrencyConversion env tags0 tb entries seen = some (.FATAL_ERROR, em') →
    0 ≤ env.result := by
  intro entries
  induction entries with
  | nil => intro seen em' h; simp [ValidateCurrencyConversion] at h
  | cons e rest ih =>
    intro seen em' h
    unfold ValidateCurrencyConversion at h
    repeat' split at h
    all_goals first
      | exact Option.noConfusion h
      | exact ih _ h
      | (obtain ⟨res, em, hc, h0, _⟩ := rapStep_fatal h
         obtain ⟨hres, _⟩ := CreateAccountingInfoRAPFile_some hc
         exact hres ▸ h0)

theorem ValidateBatchControlInfo_fatal {env : RapEnv} {tags0 : StructDescriptor → Nat}
    {tb : TransferBatch} {em' : Option RapEmission}
    (h : ValidateBatchControlInfo env tags0 tb = some (.FATAL_ERROR, em')) :
    0 ≤ env.result := by
  unfold ValidateBatchControlInfo at h
  repeat' split at h
  all_goals first
    | exact Option.noConfusion h
    | simp at h
    | (obtain ⟨res, em, hc, h0, _⟩ := rapStep_fatal h
       obtain ⟨hres, _⟩ := CreateBatchControlInfoRAPFile_some hc
       exact hres ▸ h0)

theorem ValidateAccountingInfo_fatal {env : RapEnv} {tags0 : StructDescriptor → Nat}
    {tb : TransferBatch} {em' : Option RapEmission}
    (h : ValidateAccountingInfo env tags0 tb = some (.FATAL_ERROR, em')) :
    0 ≤ env.result := by
  unfold ValidateAccountingInfo at h
  repeat' split at h
  all_goals first
    | exact Option.noConfusion h
    | simp at h
    | exact ValidateCurrencyConversion_fatal _ _ h
    | (obtain ⟨res, em, hc, h0, _⟩ := rapStep_fatal h
       obtain ⟨hres, _⟩ := CreateAccountingInfoRAPFile_some hc
       exact hres ▸ h0)

theorem ValidateNetworkInfo_fatal {env : RapEnv} {tags0 : StructDescriptor → Nat}
    {tb : TransferBatch} {em' : Option RapEmission}
    (h : ValidateNetworkInfo env tags0 tb = some (.FATAL_ERROR, em')) :
    0 ≤ env.result := by
  unfold ValidateNetworkInfo at h
  repeat' split at h
  all_goals first
    | exact Option.noConfusion h
    | simp at h
    | (obtain ⟨res, em, hc, h0, _⟩ := rapStep_fatal h
       obtain ⟨hres, _⟩ := CreateNetworkInfoRAPFile_some hc
       exact hres ▸ h0)

theorem ValidateAuditControlInfo_fatal {env : RapEnv} {tags0 : StructDescriptor → Nat}
    {tb : TransferBatch} {em' : Option RapEmission}
    (h : ValidateAuditControlInfo env tags0 tb = some (.FATAL_ERROR, em')) :
    0 ≤ env.result := by
  unfold ValidateAuditControlInfo at h
  repeat' split at h
  all_goals first
    | exact Option.noConfusion h
    | simp at h
    | (obtain ⟨res, em, hc, h0, _⟩ := rapStep_fatal h
       obtain ⟨hres, _⟩ := CreateAuditControlInfoRAPFile_some hc
       exact hres ▸ h0)

/-- Amended C2. -/
theorem claim_C2_amended :
    ∀ (env : RapEnv) (tags0 : StructDescriptor → Nat) (tb : TransferBatch)
      (em' : Option RapEmission),
    ValidateTransferBatch env tags0 tb = some (.FATAL_ERROR, em') →
    0 ≤ env.result ∨
      (tb.batchControlInfo.isSome ∧
        (tb.accountingInfo = none ∨ tb.networkInfo = none ∨ tb.auditControlInfo = none)) := by
  intro env tags0 tb em' h
  unfold ValidateTransferBatch at h
  split at h
  · obtain ⟨res, em, hc, h0, _⟩ := rapStep_fatal h
    obtain ⟨hres, _⟩ := CreateTransferBatchRAPFile_some hc
    exact Or.inl (hres ▸ h0)
  · rename_i bci hbci
    by_cases hacc : tb.accountingInfo.isNone
    · exact Or.inr ⟨by simp [hbci], Or.inl (Option.isNone_iff_eq_none.mp hacc)⟩
    · rw [if_neg (by simp [hacc])] at h
      by_cases hnet : tb.networkInfo.isNone
      · exact Or.inr ⟨by simp [hbci], Or.inr (Or.inl (Option.isNone_iff_eq_none.mp hnet))⟩
      · rw [if_neg (by simp [hnet])] at h
        by_cases haud : tb.auditControlInfo.isNone
        · exact Or.inr ⟨by simp [hbci], Or.inr (Or.inr (Option.isNone_iff_eq_none.mp haud))⟩
        · rw [if_neg (by simp [haud])] at h
          left
          cases h1 : ValidateBatchControlInfo env tags0 tb with
          | none => simp only [h1] at h; exact Option.noConfusion h
          | some p1 =>
            obtain ⟨r1, e1⟩ := p1
            simp only [h1] at h
            by_cases hr1 : r1 = .TAP_VALID
            · rw [if_neg (not_not_intro hr1)] at h
              cases h2 : ValidateAccountingInfo env tags0 tb with
              | none => simp only [h2] at h; exact Option.noConfusion h
              | some p2 =>
                obtain ⟨r2, e2⟩ := p2
                simp only [h2] at h
                by_cases hr2 : r2 = .TAP_VALID
                · rw [if_neg (not_not_intro hr2)] at h
                  cases h3 : ValidateNetworkInfo env tags0 tb with
                  | none => simp only [h3] at h; exact Option.noConfusion h
                  | some p3 =>
                    obtain ⟨r3, e3⟩ := p3
                    simp only [h3] at h
                    by_cases hr3 : r3 = .TAP_VALID
                    · rw [if_neg (not_not_intro hr3)] at h
                      cases h4 : ValidateAuditControlInfo env tags0 tb with
                      | none => simp only [h4] at h; exact Option.noConfusion h
                      | some p4 =>
                        obtain ⟨r4, e4⟩ := p4
                        simp only [h4] at h
                        by_cases hr4 : r4 = .TAP_VALID
                        · rw [if_neg (not_not_intro hr4)] at h
                          simp at h
                        · rw [if_pos hr4] at h
                          simp at h
                          rw [h.1] at h4
                          exact ValidateAuditControlInfo_fatal h4
                    · rw [if_pos hr3] at h
                      simp at h
                      rw [h.1] at h3
                      exact ValidateNetworkInfo_fatal h3
                · rw [if_pos hr2] at h
                  simp at h
                  rw [h.1] at h2
                  exact ValidateAccountingInfo_fatal h2
            · rw [if_pos hr1] at h
              simp at h
              rw [h.1] at h1
              exact ValidateBatchControlInfo_fatal h1

theorem wfCtxOne (tags0 : StructDescriptor → Nat) :
    wellFormedContext tags0 [{ pathItemId := tags0 .TransferBatchD >>> 2, itemLevel := 1 }] :=
  ⟨[.TransferBatchD], by simp, rfl, rfl⟩

theorem wfCtxTwo (tags0 : StructDescriptor → Nat) (d : StructDescriptor) :
    wellFormedContext tags0 [{ pathItemId := tags0 .TransferBatchD >>> 2, itemLevel := 1 },
                             { pathItemId := tags0 d >>> 2, itemLevel := 2 }] :=
  ⟨[.TransferBatchD, d], by simp, rfl, rfl⟩

theorem wfCtxTwoApp (tags0 : StructDescriptor → Nat) (d : StructDescriptor) :
    wellFormedContext tags0 ([{ pathItemId := tags0 .TransferBatchD >>> 2, itemLevel := 1 },
                              { pathItemId := tags0 d >>> 2, itemLevel := 2 }] ++ []) :=
  ⟨[.TransferBatchD, d], by simp, rfl, rfl⟩

theorem wfCtxThreeApp (tags0 : StructDescriptor → Nat) (d e : StructDescriptor) :
    wellFormedContext tags0 ([{ pathItemId := tags0 .TransferBatchD >>> 2, itemLevel := 1 },
                              { pathItemId := tags0 d >>> 2, itemLevel := 2 }] ++
                             [{ pathItemId := tags0 e >>> 2, itemLevel := 3 }]) :=
  ⟨[.TransferBatchD, d, e], by simp, rfl, rfl⟩

theorem ValidateCurrencyConversion_ctx {env : RapEnv} {tags0 : StructDescriptor → Nat}
    {tb : TransferBatch} :
    ∀ (entries : List CurrencyConversion) (seen : List Int) {r : TAPValidationResult}
      {em : RapEmission},
    ValidateCurrencyConversion env tags0 tb entries seen = some (r, some em) →
    wellFormedContext tags0 em.errorContext := by
  intro entries
  induction entries with
  | nil => intro seen r em h; simp [ValidateCurrencyConversion] at h
  | cons e rest ih =>
    intro seen r em h
    unfold ValidateCurrencyConversion at h
    repeat' split at h
    all_goals first
      | exact Option.noConfusion h
      | exact ih _ h
      | (obtain ⟨res, em0, hc, hem, _⟩ := rapStep_eq_some h
         obtain ⟨_, _, _, hctx, _⟩ := CreateAccountingInfoRAPFile_some hc
         rw [Option.some.inj hem, hctx]
         exact wfCtxThreeApp tags0 _ _)

theorem ValidateBatchControlInfo_ctx {env : RapEnv} {tags0 : StructDescriptor → Nat}
    {tb : TransferBatch} {r : TAPValidationResult} {em : RapEmission}
    (h : ValidateBatchControlInfo env tags0 tb = some (r, some em)) :
    wellFormedContext tags0 em.errorContext := by
  unfold ValidateBatchControlInfo at h
  repeat' split at h
  all_goals first
    | exact Option.noConfusion h
    | simp at h
    | (obtain ⟨res, em0, hc, hem, _⟩ := rapStep_eq_some h
       obtain ⟨_, _, _, hctx, _⟩ := CreateBatchControlInfoRAPFile_some hc
       rw [Option.some.inj hem, hctx]
       exact wfCtxTwo tags0 _)

theorem ValidateAccountingInfo_ctx {env : RapEnv} {tags0 : StructDescriptor → Nat}
    {tb : TransferBatch} {r : TAPValidationResult} {em : RapEmission}
    (h : ValidateAccountingInfo env tags0 tb = some (r, some em)) :
    wellFormedContext tags0 em.errorContext := by
  unfold ValidateAccountingInfo at h
  repeat' split at h
  all_goals first
    | exact Option.noConfusion h
    | simp at h
    | exact ValidateCurrencyConversion_ctx _ _ h
    | (obtain ⟨res, em0, hc, hem, _⟩ := rapStep_eq_some h
       obtain ⟨_, _, _, hctx, _⟩ := CreateAccountingInfoRAPFile_some hc
       rw [Option.some.inj hem, hctx]
       exact wfCtxTwoApp tags0 _)

theorem ValidateNetworkInfo_ctx {env : RapEnv} {tags0 : StructDescriptor → Nat}
    {tb : TransferBatch} {r : TAPValidationResult} {em : RapEmission}
    (h : ValidateNetworkInfo env tags0 tb = some (r, some em)) :
    wellFormedContext tags0 em.errorContext := by
  unfold ValidateNetworkInfo at h
  repeat' split at h
  all_goals first
    | exact Option.noConfusion h
    | simp at h
    | (obtain ⟨res, em0, hc, hem, _⟩ := rapStep_eq_some h
       obtain ⟨_, _, _, hctx, _⟩ := CreateNetworkInfoRAPFile_some hc
       rw [Option.some.inj hem, hctx]
       exact wfCtxTwo tags0 _)

theorem ValidateAuditControlInfo_ctx {env : RapEnv} {tags0 : StructDescriptor → Nat}
    {tb : TransferBatch} {r : TAPValidationResult} {em : RapEmission}
    (h : ValidateAuditControlInfo env tags0 tb = some (r, some em)) :
    wellFormedContext tags0 em.errorContext := by
  unfold ValidateAuditControlInfo at h
  repeat' split at h
  all_goals first
    | exact Option.noConfusion h
    | simp at h
    | (obtain ⟨res, em0, hc, hem, _⟩ := rapStep_eq_some h
       obtain ⟨_, _, _, hctx, _⟩ := CreateAuditControlInfoRAPFile_some hc
       rw [Option.some.inj hem, hctx]
       first
         | exact wfCtxTwoApp tags0 _
         | exact wfCtxThreeApp tags0 _ _)

theorem ValidateTransferBatch_ctx {env : RapEnv} {tags0 : StructDescriptor → Nat}
    {tb : TransferBatch} {r : TAPValidationResult} {em : RapEmission}
    (h : ValidateTransferBatch env tags0 tb = some (r, some em)) :
    wellFormedContext tags0 em.errorContext := by
  unfold ValidateTransferBatch at h
  split at h
  · obtain ⟨res, em0, hc, hem, _⟩ := rapStep_eq_some h
    obtain ⟨_, _, _, hctx, _⟩ := CreateTransferBatchRAPFile_some hc
    rw [Option.some.inj hem, hctx]
    exact wfCtxOne tags0
  · rename_i bci hbci
    by_cases hacc : tb.accountingInfo.isNone
    · rw [if_pos hacc] at h
      obtain ⟨_, res, em0, hc, hem⟩ := rapStepIgnore_eq_some h
      obtain ⟨_, _, _, hctx, _⟩ := CreateTransferBatchRAPFile_some hc
      rw [Option.some.inj hem, hctx]
      exact wfCtxOne tags0
    · rw [if_neg (by simp [hacc])] at h
      by_cases hnet : tb.networkInfo.isNone
      · rw [if_pos hnet] at h
        obtain ⟨_, res, em0, hc, hem⟩ := rapStepIgnore_eq_some h
        obtain ⟨_, _, _, hctx, _⟩ := CreateTransferBatchRAPFile_some hc
        rw [Option.some.inj hem, hctx]
        exact wfCtxOne tags0
      · rw [if_neg (by simp [hnet])] at h
        by_cases haud : tb.auditControlInfo.isNone
        · rw [if_pos haud] at h
          obtain ⟨_, res, em0, hc, hem⟩ := rapStepIgnore_eq_some h
          obtain ⟨_, _, _, hctx, _⟩ := CreateTransferBatchRAPFile_some hc
          rw [Option.some.inj hem, hctx]
          exact wfCtxOne tags0
        · rw [if_neg (by simp [haud])] at h
          cases h1 : ValidateBatchControlInfo env tags0 tb with
          | none => simp only [h1] at h; exact Option.noConfusion h
          | some p1 =>
            obtain ⟨r1, e1⟩ := p1
            simp only [h1] at h
            by_cases hr1 : r1 = .TAP_VALID
            · rw [if_neg (not_not_intro hr1)] at h
              cases h2 : ValidateAccountingInfo env tags0 tb with
              | none => simp only [h2] at h; exact Option.noConfusion h
              | some p2 =>
                obtain ⟨r2, e2⟩ := p2
                simp only [h2] at h
                by_cases hr2 : r2 = .TAP_VALID
                · rw [if_neg (not_not_intro hr2)] at h
                  cases h3 : ValidateNetworkInfo env tags0 tb with
                  | none => simp only [h3] at h; exact Option.noConfusion h
                  | some p3 =>
                    obtain ⟨r3, e3⟩ := p3
                    simp only [h3] at h
                    by_cases hr3 : r3 = .TAP_VALID
                    · rw [if_neg (not_not_intro hr3)] at h
                      cases h4 : ValidateAuditControlInfo env tags0 tb with
                      | none => simp only [h4] at h; exact Option.noConfusion h
                      | some p4 =>
                        obtain ⟨r4, e4⟩ := p4
                        simp only [h4] at h
                        by_cases hr4 : r4 = .TAP_VALID
                        · rw [if_neg (not_not_intro hr4)] at h
                          simp at h
                        · rw [if_pos hr4] at h
                          simp at h
                          rw [h.2] at h4
                          exact ValidateAuditControlInfo_ctx h4
                    · rw [if_pos hr3] at h
                      simp at h
                      rw [h.2] at h3
                      exact ValidateNetworkInfo_ctx h3
                · rw [if_pos hr2] at h
                  simp at h
                  rw [h.2] at h2
                  exact ValidateAccountingInfo_ctx h2
            · rw [if_pos hr1] at h
              simp at h
              rw [h.2] at h1
              exact ValidateBatchControlInfo_ctx h1

/-- Claim C5 theorem: every emitted RAP has a well-formed context. -/
theorem claim_C5_context_invariant :
    ∀ (env : RapEnv) (tags0 : StructDescriptor → Nat) (d : DataInterChange)
      (r : TAPValidationResult) (em : RapEmission),
    Validate env tags0 d = some (r, some em) →
    wellFormedContext tags0 em.errorContext := by
  intro env tags0 d r em h
  cases d with
  | transferBatch tb => exact ValidateTransferBatch_ctx h
  | notification n =>
    simp only [Validate, ValidateNotification] at h
    split at h <;> simp at h
  | otherVariant => simp [Validate] at h

theorem ValidateCurrencyConversion_code {env : RapEnv} {tags0 : StructDescriptor → Nat}
    {tb : TransferBatch} :
    ∀ (entries : List CurrencyConversion) (seen : List Int) (prev : List CurrencyConversion)
      {r : TAPValidationResult} {em : RapEmission},
    (∀ c : Int, c ∈ seen ↔ (prev.any fun p => p.exchangeRateCode == some c) = true) →
    ValidateCurrencyConversion env tags0 tb entries seen = some (r, some em) →
    specCCFirstError entries prev = some em.errorCode ∧
    em.errorContext =
      [{ pathItemId := tags0 .TransferBatchD >>> 2, itemLevel := 1 },
       { pathItemId := tags0 .AccountingInfoD >>> 2, itemLevel := 2 },
       { pathItemId := tags0 .CurrencyConversionListD >>> 2, itemLevel := 3 }] := by
  intro entries
  induction entries with
  | nil => intro seen prev r em hseen h; simp [ValidateCurrencyConversion] at h
  | cons e rest ih =>
    intro seen prev r em hseen h
    unfold ValidateCurrencyConversion at h
    cases hcode : e.exchangeRateCode with
    | none =>
      simp only [hcode] at h
      obtain ⟨res, em0, hc, hem, _⟩ := rapStep_eq_some h
      obtain ⟨_, hcd, _, hctx, _⟩ := CreateAccountingInfoRAPFile_some hc
      obtain rfl := Option.some.inj hem
      refine ⟨?_, by rw [hctx]; rfl⟩
      simp [specCCFirstError, hcode, hcd]
    | some code =>
      simp only [hcode] at h
      by_cases hnum : e.numberOfDecimalPlaces.isNone
      · rw [if_pos hnum] at h
        obtain ⟨res, em0, hc, hem, _⟩ := rapStep_eq_some h
        obtain ⟨_, hcd, _, hctx, _⟩ := CreateAccountingInfoRAPFile_some hc
        obtain rfl := Option.some.inj hem
        refine ⟨?_, by rw [hctx]; rfl⟩
        simp [specCCFirstError, hcode, hnum, hcd]
      · rw [if_neg hnum] at h
        by_cases hrate : e.exchangeRate.isNone
        · rw [if_pos hrate] at h
          obtain ⟨res, em0, hc, hem, _⟩ := rapStep_eq_some h
          obtain ⟨_, hcd, _, hctx, _⟩ := CreateAccountingInfoRAPFile_some hc
          obtain rfl := Option.some.inj hem
          refine ⟨?_, by rw [hctx]; rfl⟩
          simp [specCCFirstError, hcode, hnum, hrate, hcd]
        · rw [if_neg hrate] at h
          have hstep : specCCFirstError (e :: rest) prev =
              if (prev.any fun p => p.exchangeRateCode == e.exchangeRateCode) then
                some .CURRENCY_CONVERSION_EXRATE_CODE_DUPLICATION
              else specCCFirstError rest (prev ++ [e]) := by
            simp only [specCCFirstError]
            rw [if_neg (by simp [hcode]), if_neg hnum, if_neg hrate]
          by_cases hdup : code ∈ seen
          · rw [if_pos hdup] at h
            obtain ⟨res, em0, hc, hem, _⟩ := rapStep_eq_some h
            obtain ⟨_, hcd, _, hctx, _⟩ := CreateAccountingInfoRAPFile_some hc
            obtain rfl := Option.some.inj hem
            refine ⟨?_, by rw [hctx]; rfl⟩
            have hprev : (prev.any fun p => p.exchangeRateCode == e.exchangeRateCode) = true := by
              rw [hcode]
              exact (hseen code).mp hdup
            rw [hstep, if_pos hprev, hcd]
          · rw [if_neg hdup] at h
            have hseen' : ∀ c : Int, c ∈ code :: seen ↔
                (((prev ++ [e]).any fun p => p.exchangeRateCode == some c) = true) := by
              intro c
              rw [List.any_append]
              simp only [List.mem_cons, List.any_cons, List.any_nil, Bool.or_false,
                Bool.or_eq_true, hcode, beq_iff_eq, Option.some.injEq]
              constructor
              · rintro (rfl | hc)
                · exact Or.inr rfl
                · exact Or.inl ((hseen c).mp hc)
              · rintro (hc | rfl)
                · exact Or.inr ((hseen c).mpr hc)
                · exact Or.inl rfl
            obtain ⟨hspec, hctx⟩ := ih (code :: seen) (prev ++ [e]) hseen' h
            have hnodup : ¬ (prev.any fun p => p.exchangeRateCode == e.exchangeRateCode) = true := by
              rw [hcode]
              intro hne
              exact hdup ((hseen code).mpr hne)
            refine ⟨?_, hctx⟩
            rw [hstep, if_neg hnodup, hspec]

/-- Claim C4: rule priority of the accounting validator. -/
theorem claim_C4_accounting_rule_priority :
    ∀ (env : RapEnv) (tags0 : StructDescriptor → Nat) (tb : TransferBatch)
      (r : TAPValidationResult) (em : RapEmission),
    ValidateAccountingInfo env tags0 tb = some (r, some em) →
    specAccountingFirstError tb = some em.errorCode ∧
    ((em.errorCode = .CURRENCY_CONVERSION_EXRATE_CODE_MISSING ∨
      em.errorCode = .CURRENCY_CONVERSION_NUM_OF_DEC_PLACES_MISSING ∨
      em.errorCode = .CURRENCY_CONVERSION_EXCHANGE_RATE_MISSING ∨
      em.errorCode = .CURRENCY_CONVERSION_EXRATE_CODE_DUPLICATION) →
      em.errorContext =
        [{ pathItemId := tags0 .TransferBatchD >>> 2, itemLevel := 1 },
         { pathItemId := tags0 .AccountingInfoD >>> 2, itemLevel := 2 },
         { pathItemId := tags0 .CurrencyConversionListD >>> 2, itemLevel := 3 }]) := by
  intro env tags0 tb r em h
  unfold ValidateAccountingInfo at h
  cases hacc : tb.accountingInfo with
  | none => rw [hacc] at h; exact Option.noConfusion h
  | some acc =>
    simp only [hacc] at h
    by_cases h1 : acc.localCurrency.isNone
    · rw [if_pos h1] at h
      obtain ⟨res, em0, hc, hem, _⟩ := rapStep_eq_some h
      obtain ⟨_, hcd, _, hctx, _⟩ := CreateAccountingInfoRAPFile_some hc
      obtain rfl := Option.some.inj hem
      refine ⟨?_, ?_⟩
      · simp only [specAccountingFirstError, hacc]
        rw [if_pos h1, hcd]
      · intro hfour
        rw [hcd] at hfour
        rcases hfour with h' | h' | h' | h' <;> exact ErrorCode.noConfusion h'
    · rw [if_neg h1] at h
      by_cases h2 : acc.tapDecimalPlaces.isNone
      · rw [if_pos h2] at h
        obtain ⟨res, em0, hc, hem, _⟩ := rapStep_eq_some h
        obtain ⟨_, hcd, _, hctx, _⟩ := CreateAccountingInfoRAPFile_some hc
        obtain rfl := Option.some.inj hem
        refine ⟨?_, ?_⟩
        · simp only [specAccountingFirstError, hacc]
          rw [if_neg h1, if_pos h2, hcd]
        · intro hfour
          rw [hcd] at hfour
          rcases hfour with h' | h' | h' | h' <;> exact ErrorCode.noConfusion h'
      · rw [if_neg h2] at h
        cases htax : (if acc.taxation.isSome then some false else BatchContainsTaxes tb) with
        | none => simp only [htax] at h; exact Option.noConfusion h
        | some b =>
          simp only [htax] at h
          cases b with
          | true =>
            have hc3 : acc.taxation.isNone = true ∧ BatchContainsTaxes tb = some true := by
              by_cases hts : acc.taxation.isSome
              · rw [if_pos hts] at htax; simp at htax
              · rw [if_neg hts] at htax
                exact ⟨by simp [Option.not_isSome_iff_eq_none.mp hts], htax⟩
            obtain ⟨res, em0, hc, hem, _⟩ := rapStep_eq_some h
            obtain ⟨_, hcd, _, hctx, _⟩ := CreateAccountingInfoRAPFile_some hc
            obtain rfl := Option.some.inj hem
            refine ⟨?_, ?_⟩
            · simp only [specAccountingFirstError, hacc]
              rw [if_neg h1, if_neg h2, if_pos hc3, hcd]
            · intro hfour
              rw [hcd] at hfour
              rcases hfour with h' | h' | h' | h' <;> exact ErrorCode.noConfusion h'
          | false =>
            have hnc3 : ¬ (acc.taxation.isNone = true ∧ BatchContainsTaxes tb = some true) := by
              rintro ⟨ha, hb⟩
              by_cases hts : acc.taxation.isSome
              · rw [Option.isNone_iff_eq_none] at ha
                rw [ha] at hts
                simp at hts
              · rw [if_neg hts] at htax
                rw [htax] at hb
                simp at hb
            cases hdisc : (if acc.discounting.isSome then some false
                           else BatchContainsDiscounts tb) with
            | none => simp only [hdisc] at h; exact Option.noConfusion h
            | some b2 =>
              simp only [hdisc] at h
              cases b2 with
              | true =>
                have hc4 : acc.discounting.isNone = true ∧
                    BatchContainsDiscounts tb = some true := by
                  by_cases hts : acc.discounting.isSome
                  · rw [if_pos hts] at hdisc; simp at hdisc
                  · rw [if_neg hts] at hdisc
                    exact ⟨by simp [Option.not_isSome_iff_eq_none.mp hts], hdisc⟩
                obtain ⟨res, em0, hc, hem, _⟩ := rapStep_eq_some h
                obtain ⟨_, hcd, _, hctx, _⟩ := CreateAccountingInfoRAPFile_some hc
                obtain rfl := Option.some.inj hem
                refine ⟨?_, ?_⟩
                · simp only [specAccountingFirstError, hacc]
                  rw [if_neg h1, if_neg h2, if_neg hnc3, if_pos hc4, hcd]
                · intro hfour
                  rw [hcd] at hfour
                  rcases hfour with h' | h' | h' | h' <;> exact ErrorCode.noConfusion h'
              | false =>
                have hnc4 : ¬ (acc.discounting.isNone = true ∧
                    BatchContainsDiscounts tb = some true) := by
                  rintro ⟨ha, hb⟩
                  by_cases hts : acc.discounting.isSome
                  · rw [Option.isNone_iff_eq_none] at ha
                    rw [ha] at hts
                    simp at hts
                  · rw [if_neg hts] at hdisc
                    rw [hdisc] at hb
                    simp at hb
                cases hpos : (if acc.currencyConversionInfo.isSome then some false
                              else BatchContainsPositiveCharges tb) with
                | none => simp only [hpos] at h; exact Option.noConfusion h
                | some b3 =>
                  simp only [hpos] at h
                  cases b3 with
                  | true =>
                    have hc5 : acc.currencyConversionInfo.isNone = true ∧
                        BatchContainsPositiveCharges tb = some true := by
                      by_cases hts : acc.currencyConversionInfo.isSome
                      · rw [if_pos hts] at hpos; simp at hpos
                      · rw [if_neg hts] at hpos
                        exact ⟨by simp [Option.not_isSome_iff_eq_none.mp hts], hpos⟩
                    obtain ⟨res, em0, hc, hem, _⟩ := rapStep_eq_some h
                    obtain ⟨_, hcd, _, hctx, _⟩ := CreateAccountingInfoRAPFile_some hc
                    obtain rfl := Option.some.inj hem
                    refine ⟨?_, ?_⟩
                    · simp only [specAccountingFirstError, hacc]
                      rw [if_neg h1, if_neg h2, if_neg hnc3, if_neg hnc4, if_pos hc5, hcd]
                    · intro hfour
                      rw [hcd] at hfour
                      rcases hfour with h' | h' | h' | h' <;> exact ErrorCode.noConfusion h'
                  | false =>
                    have hnc5 : ¬ (acc.currencyConversionInfo.isNone = true ∧
                        BatchContainsPositiveCharges tb = some true) := by
                      rintro ⟨ha, hb⟩
                      by_cases hts : acc.currencyConversionInfo.isSome
                      · rw [Option.isNone_iff_eq_none] at ha
                        rw [ha] at hts
                        simp at hts
                      · rw [if_neg hts] at hpos
                        rw [hpos] at hb
                        simp at hb
                    cases hcc : acc.currencyConversionInfo with
                    | none => simp only [hcc] at h; simp at h
                    | some entries =>
                      simp only [hcc] at h
                      obtain ⟨hspec, hctx⟩ :=
                        ValidateCurrencyConversion_code entries [] [] (by simp) h
                      refine ⟨?_, fun _ => hctx⟩
                      simp only [specAccountingFirstError, hacc]
                      rw [if_neg h1, if_neg h2, if_neg hnc3, if_neg hnc4, if_neg hnc5, hcc]
                      simpa using hspec

theorem optNotNone {α : Type} {o : Option α} (h : o.isSome = true) : o.isNone = false := by
  cases o <;> simp_all

theorem optSome_of_not_none {α : Type} {o : Option α} (h : ¬ o.isNone = true) :
    o.isSome = true := by
  cases o <;> simp_all

theorem ValidateCurrencyConversion_valid_intro {env : RapEnv} {tags0 : StructDescriptor → Nat}
    {tb : TransferBatch} :
    ∀ (entries : List CurrencyConversion) (seen : List Int),
    (∀ e ∈ entries, e.exchangeRateCode.isSome = true ∧ e.numberOfDecimalPlaces.isSome = true ∧
      e.exchangeRate.isSome = true) →
    (entries.filterMap fun e => e.exchangeRateCode).Nodup →
    (∀ c ∈ seen, ∀ e ∈ entries, e.exchangeRateCode ≠ some c) →
    ValidateCurrencyConversion env tags0 tb entries seen = some (.TAP_VALID, none) := by
  intro entries
  induction entries with
  | nil => intro seen _ _ _; rfl
  | cons e rest ih =>
    intro seen hcomp hnodup hdisj
    obtain ⟨hc, hn, hr⟩ := hcomp e (List.mem_cons_self e rest)
    obtain ⟨code, hcode⟩ := Option.isSome_iff_exists.mp hc
    have hfm : ((e :: rest).filterMap fun e => e.exchangeRateCode) =
        code :: (rest.filterMap fun e => e.exchangeRateCode) := by
      simp [List.filterMap_cons, hcode]
    rw [hfm] at hnodup
    obtain ⟨hnotmem, hnodup'⟩ := List.nodup_cons.mp hnodup
    have hdup : code ∉ seen := by
      intro hmem
      exact hdisj code hmem e (List.mem_cons_self e rest) hcode
    unfold ValidateCurrencyConversion
    simp only [hcode]
    rw [if_neg (by simp [optNotNone hn]), if_neg (by simp [optNotNone hr]), if_neg hdup]
    apply ih (code :: seen)
    · exact fun e' he' => hcomp e' (List.mem_cons_of_mem e he')
    · exact hnodup'
    · intro c hcm e' he' hce
      rcases List.mem_cons.mp hcm with rfl | hcs
      · exact hnotmem (List.mem_filterMap.mpr ⟨e', he', hce⟩)
      · exact hdisj c hcs e' (List.mem_cons_of_mem e he') hce

theorem ValidateCurrencyConversion_valid_elim {env : RapEnv} {tags0 : StructDescriptor → Nat}
    {tb : TransferBatch} :
    ∀ (entries : List CurrencyConversion) (seen : List Int) {em : Option RapEmission},
    ValidateCurrencyConversion env tags0 tb entries seen = some (.TAP_VALID, em) →
    (∀ e ∈ entries, e.exchangeRateCode.isSome = true ∧ e.numberOfDecimalPlaces.isSome = true ∧
      e.exchangeRate.isSome = true) ∧
    (entries.filterMap fun e => e.exchangeRateCode).Nodup ∧
    (∀ c ∈ seen, ∀ e ∈ entries, e.exchangeRateCode ≠ some c) ∧ em = none := by
  intro entries
  induction entries with
  | nil =>
    intro seen em h
    simp [ValidateCurrencyConversion] at h
    simp [h]
  | cons e rest ih =>
    intro seen em h
    unfold ValidateCurrencyConversion at h
    cases hcode : e.exchangeRateCode with
    | none => simp only [hcode] at h; exact absurd h rapStep_ne_valid
    | some code =>
      simp only [hcode] at h
      by_cases hnum : e.numberOfDecimalPlaces.isNone
      · rw [if_pos hnum] at h; exact absurd h rapStep_ne_valid
      · rw [if_neg hnum] at h
        by_cases hrate : e.exchangeRate.isNone
        · rw [if_pos hrate] at h; exact absurd h rapStep_ne_valid
        · rw [if_neg hrate] at h
          by_cases hdup : code ∈ seen
          · rw [if_pos hdup] at h; exact absurd h rapStep_ne_valid
          · rw [if_neg hdup] at h
            obtain ⟨hcomp, hnodup, hdisj, hem⟩ := ih (code :: seen) h
            refine ⟨?_, ?_, ?_, hem⟩
            · intro e' he'
              rcases List.mem_cons.mp he' with rfl | hm
              · exact ⟨by simp [hcode], optSome_of_not_none hnum, optSome_of_not_none hrate⟩
              · exact hcomp e' hm
            · have hfm : ((e :: rest).filterMap fun e => e.exchangeRateCode) =
                  code :: (rest.filterMap fun e => e.exchangeRateCode) := by
                simp [List.filterMap_cons, hcode]
              rw [hfm]
              refine List.nodup_cons.mpr ⟨?_, hnodup⟩
              intro hmem
              obtain ⟨e', he', hce⟩ := List.mem_filterMap.mp hmem
              exact hdisj code (List.mem_cons_self code seen) e' he' hce
            · intro c hcm e' he' hce
              rcases List.mem_cons.mp he' with rfl | hm
              · rw [hcode] at hce
                obtain rfl : code = c := by simpa using hce
                exact hdup hcm
              · exact hdisj c (List.mem_cons_of_mem code hcm) e' hm hce

theorem ValidateBatchControlInfo_valid {env : RapEnv} {tags0 : StructDescriptor → Nat}
    {tb : TransferBatch} {bci : BatchControlInfo}
    (hbci : tb.batchControlInfo = some bci) (hrules : bciRulesB bci = true) :
    ValidateBatchControlInfo env tags0 tb = some (.TAP_VALID, none) := by
  simp only [bciRulesB, Bool.and_eq_true] at hrules
  obtain ⟨⟨⟨⟨⟨hs, hr⟩, hf⟩, ha⟩, hv⟩, hc⟩ := hrules
  unfold ValidateBatchControlInfo
  simp only [hbci]
  rw [if_neg (by simp [optNotNone hs, optNotNone hr, optNotNone hf]),
     if_neg (by simp [optNotNone ha]), if_neg (by simp [optNotNone hv]),
     if_neg (by simp [optNotNone hc])]

theorem ValidateAccountingInfo_valid {env : RapEnv} {tags0 : StructDescriptor → Nat}
    {tb : TransferBatch} {acc : AccountingInfo}
    (hacc : tb.accountingInfo = some acc) (hrules : accRulesB tb acc = true) :
    ValidateAccountingInfo env tags0 tb = some (.TAP_VALID, none) := by
  simp only [accRulesB, Bool.and_eq_true] at hrules
  obtain ⟨⟨⟨⟨hl, hd⟩, ht⟩, hdi⟩, hcc⟩ := hrules
  unfold ValidateAccountingInfo
  simp only [hacc]
  rw [if_neg (by simp [optNotNone hl]), if_neg (by simp [optNotNone hd])]
  have htax : (if acc.taxation.isSome = true then some false else BatchContainsTaxes tb) =
      some false := by
    rcases Bool.or_eq_true _ _ |>.mp ht with h | h
    · rw [if_pos h]
    · by_cases hts : acc.taxation.isSome
      · rw [if_pos hts]
      · rw [if_neg hts]; simpa using h
  have hdisc : (if acc.discounting.isSome = true then some false
      else BatchContainsDiscounts tb) = some false := by
    rcases Bool.or_eq_true _ _ |>.mp hdi with h | h
    · rw [if_pos h]
    · by_cases hts : acc.discounting.isSome
      · rw [if_pos hts]
      · rw [if_neg hts]; simpa using h
  simp only [htax, hdisc]
  cases hccv : acc.currencyConversionInfo with
  | none =>
    rw [hccv] at hcc
    have hb : BatchContainsPositiveCharges tb = some false := by simpa using hcc
    simp [hccv, hb]
  | some entries =>
    have hpos : (if acc.currencyConversionInfo.isSome = true then some false
        else BatchContainsPositiveCharges tb) = some false := by
      rw [if_pos (by simp [hccv])]
    simp only [hpos, hccv]
    rw [hccv] at hcc
    simp only [Bool.and_eq_true, List.all_eq_true, decide_eq_true_eq] at hcc
    obtain ⟨hcomp, hnodup⟩ := hcc
    apply ValidateCurrencyConversion_valid_intro entries []
    · intro e he
      have h' := hcomp e he
      simp only [Bool.and_eq_true] at h'
      exact ⟨h'.1.1, h'.1.2, h'.2⟩
    · exact hnodup
    · intro c hcm
      exact absurd hcm (List.not_mem_nil c)

theorem ValidateNetworkInfo_valid {env : RapEnv} {tags0 : StructDescriptor → Nat}
    {tb : TransferBatch} {ni : NetworkInfo}
    (hni : tb.networkInfo = some ni) (hrules : networkRulesB ni = true) :
    ValidateNetworkInfo env tags0 tb = some (.TAP_VALID, none) := by
  simp only [networkRulesB, Bool.and_eq_true] at hrules
  obtain ⟨hu, hr⟩ := hrules
  unfold ValidateNetworkInfo
  simp only [hni]
  rw [if_neg (by simp [optNotNone hu]), if_neg (by simp [optNotNone hr])]

theorem ValidateAuditControlInfo_valid {env : RapEnv} {tags0 : StructDescriptor → Nat}
    {tb : TransferBatch} {aud : AuditControlInfo} {ces : List CallEventDetail}
    (haud : tb.auditControlInfo = some aud) (hces : tb.callEventDetails = some ces)
    (hrules : auditRulesB aud ces = true) :
    ValidateAuditControlInfo env tags0 tb = some (.TAP_VALID, none) := by
  simp only [auditRulesB, Bool.and_eq_true] at hrules
  obtain ⟨⟨⟨hc, ht⟩, hd⟩, hcnt⟩ := hrules
  unfold ValidateAuditControlInfo
  simp only [haud]
  rw [if_neg (by simp [optNotNone hc]), if_neg (by simp [optNotNone ht]),
     if_neg (by simp [optNotNone hd])]
  have hcnt' : aud.callEventDetailsCount = some (ces.length : Int) := by simpa using hcnt
  simp only [hcnt', hces]
  rw [if_neg (by simp)]

/-- Claim C8: soundness. -/
theorem claim_C8_soundness :
    ∀ (env : RapEnv) (tags0 : StructDescriptor → Nat) (tb : TransferBatch),
    rulesHoldB tb = true →
    Validate env tags0 (.transferBatch tb) = some (.TAP_VALID, none) := by
  intro env tags0 tb h
  unfold rulesHoldB at h
  cases hbci : tb.batchControlInfo with
  | none => rw [hbci] at h; simp at h
  | some bci =>
  cases hacc : tb.accountingInfo with
  | none => rw [hbci, hacc] at h; simp at h
  | some acc =>
  cases hni : tb.networkInfo with
  | none => rw [hbci, hacc, hni] at h; simp at h
  | some ni =>
  cases haud : tb.auditControlInfo with
  | none => rw [hbci, hacc, hni, haud] at h; simp at h
  | some aud =>
  cases hces : tb.callEventDetails with
  | none => rw [hbci, hacc, hni, haud, hces] at h; simp at h
  | some ces =>
  rw [hbci, hacc, hni, haud, hces] at h
  simp only [Bool.and_eq_true] at h
  obtain ⟨⟨⟨h1, h2⟩, h3⟩, h4⟩ := h
  have hv1 := @ValidateBatchControlInfo_valid env tags0 tb bci hbci h1
  have hv2 := @ValidateAccountingInfo_valid env tags0 tb acc hacc h2
  have hv3 := @ValidateNetworkInfo_valid env tags0 tb ni hni h3
  have hv4 := @ValidateAuditControlInfo_valid env tags0 tb aud ces haud hces h4
  simp only [Validate]
  unfold ValidateTransferBatch
  simp only [hbci]
  rw [if_neg (by simp [hacc]), if_neg (by simp [hni]), if_neg (by simp [haud])]
  simp [hv1, hv2, hv3, hv4]

theorem ValidateTransferBatch_valid_elim {env : RapEnv} {tags0 : StructDescriptor → Nat}
    {tb : TransferBatch} {em : Option RapEmission}
    (h : ValidateTransferBatch env tags0 tb = some (.TAP_VALID, em)) :
    ∃ e2, ValidateAccountingInfo env tags0 tb = some (.TAP_VALID, e2) := by
  unfold ValidateTransferBatch at h
  split at h
  · exact absurd h rapStep_ne_valid
  · rename_i bci hbci
    by_cases hacc : tb.accountingInfo.isNone
    · rw [if_pos hacc] at h
      obtain ⟨hr, _⟩ := rapStepIgnore_eq_some h
      exact TAPValidationResult.noConfusion hr
    · rw [if_neg hacc] at h
      by_cases hnet : tb.networkInfo.isNone
      · rw [if_pos hnet] at h
        obtain ⟨hr, _⟩ := rapStepIgnore_eq_some h
        exact TAPValidationResult.noConfusion hr
      · rw [if_neg hnet] at h
        by_cases haud : tb.auditControlInfo.isNone
        · rw [if_pos haud] at h
          obtain ⟨hr, _⟩ := rapStepIgnore_eq_some h
          exact TAPValidationResult.noConfusion hr
        · rw [if_neg haud] at h
          cases h1 : ValidateBatchControlInfo env tags0 tb with
          | none => simp only [h1] at h; exact Option.noConfusion h
          | some p1 =>
            obtain ⟨r1, e1⟩ := p1
            simp only [h1] at h
            by_cases hr1 : r1 = .TAP_VALID
            · rw [if_neg (not_not_intro hr1)] at h
              cases h2 : ValidateAccountingInfo env tags0 tb with
              | none => simp only [h2] at h; exact Option.noConfusion h
              | some p2 =>
                obtain ⟨r2, e2⟩ := p2
                simp only [h2] at h
                by_cases hr2 : r2 = .TAP_VALID
                · exact ⟨e2, by rw [hr2]⟩
                · rw [if_pos hr2] at h
                  simp at h
                  exact absurd h.1 hr2
            · rw [if_pos hr1] at h
              simp at h
              exact absurd h.1 hr1

theorem ValidateAccountingInfo_valid_elim {env : RapEnv} {tags0 : StructDescriptor → Nat}
    {tb : TransferBatch} {em : Option RapEmission} {acc : AccountingInfo}
    {entries : List CurrencyConversion}
    (hacc : tb.accountingInfo = some acc) (hcc : acc.currencyConversionInfo = some entries)
    (h : ValidateAccountingInfo env tags0 tb = some (.TAP_VALID, em)) :
    ∃ em2, ValidateCurrencyConversion env tags0 tb entries [] = some (.TAP_VALID, em2) := by
  unfold ValidateAccountingInfo at h
  simp only [hacc] at h
  by_cases h1 : acc.localCurrency.isNone
  · rw [if_pos h1] at h; exact absurd h rapStep_ne_valid
  · rw [if_neg h1] at h
    by_cases h2 : acc.tapDecimalPlaces.isNone
    · rw [if_pos h2] at h; exact absurd h rapStep_ne_valid
    · rw [if_neg h2] at h
      cases htax : (if acc.taxation.isSome then some false else BatchContainsTaxes tb) with
      | none => simp only [htax] at h; exact Option.noConfusion h
      | some b =>
        simp only [htax] at h
        cases b with
        | true => exact absurd h rapStep_ne_valid
        | false =>
          cases hdisc : (if acc.discounting.isSome then some false
                         else BatchContainsDiscounts tb) with
          | none => simp only [hdisc] at h; exact Option.noConfusion h
          | some b2 =>
            simp only [hdisc] at h
            cases b2 with
            | true => exact absurd h rapStep_ne_valid
            | false =>
              cases hpos : (if acc.currencyConversionInfo.isSome then some false
                            else BatchContainsPositiveCharges tb) with
              | none => simp only [hpos] at h; exact Option.noConfusion h
              | some b3 =>
                simp only [hpos] at h
                cases b3 with
                | true => exact absurd h rapStep_ne_valid
                | false =>
                  simp only [hcc] at h
                  exact ⟨em, h⟩

theorem pairwiseCodesOfNodup :
    ∀ (entries : List CurrencyConversion),
    (∀ e ∈ entries, e.exchangeRateCode.isSome = true) →
    (entries.filterMap fun e => e.exchangeRateCode).Nodup →
    List.Pairwise (fun a b => a.exchangeRateCode ≠ b.exchangeRateCode) entries := by
  intro entries
  induction entries with
  | nil => intro _ _; exact List.Pairwise.nil
  | cons e rest ih =>
    intro hcomp hnodup
    obtain ⟨code, hcode⟩ :=
      Option.isSome_iff_exists.mp (hcomp e (List.mem_cons_self e rest))
    have hfm : ((e :: rest).filterMap fun e => e.exchangeRateCode) =
        code :: (rest.filterMap fun e => e.exchangeRateCode) := by
      simp [List.filterMap_cons, hcode]
    rw [hfm] at hnodup
    obtain ⟨hnm, hnd⟩ := List.nodup_cons.mp hnodup
    refine List.Pairwise.cons ?_ (ih (fun e' he' => hcomp e' (List.mem_cons_of_mem e he')) hnd)
    intro b hb heq
    apply hnm
    refine List.mem_filterMap.mpr ⟨b, hb, ?_⟩
    rw [← heq, hcode]

/-- Claim C10. -/
theorem claim_C10_currency_conversion_uniqueness :
    ∀ (env : RapEnv) (tags0 : StructDescriptor → Nat) (tb : TransferBatch)
      (em : Option RapEmission) (acc : AccountingInfo) (entries : List CurrencyConversion),
    ValidateTransferBatch env tags0 tb = some (.TAP_VALID, em) →
    tb.accountingInfo = some acc →
    acc.currencyConversionInfo = some entries →
    (∀ e ∈ entries, e.exchangeRateCode.isSome = true ∧ e.numberOfDecimalPlaces.isSome = true ∧
      e.exchangeRate.isSome = true) ∧
    List.Pairwise (fun a b => a.exchangeRateCode ≠ b.exchangeRateCode) entries := by
  intro env tags0 tb em acc entries h hacc hcc
  obtain ⟨e2, h2⟩ := ValidateTransferBatch_valid_elim h
  obtain ⟨em2, hl⟩ := ValidateAccountingInfo_valid_elim hacc hcc h2
  obtain ⟨hcomp, hnodup, _, _⟩ := ValidateCurrencyConversion_valid_elim entries [] hl
  exact ⟨hcomp, pairwiseCodesOfNodup entries (fun e he => (hcomp e he).1) hnodup⟩

theorem anyO_eq_some {α : Type} (f : α → Option Bool) (g : α → Bool) :
    ∀ l : List α, (∀ a ∈ l, f a = some (g a)) → anyO f l = some (l.any g) := by
  intro l
  induction l with
  | nil => intro _; rfl
  | cons x xs ih =>
    intro hf
    have hx := hf x (List.mem_cons_self x xs)
    unfold anyO
    rw [hx]
    cases hgx : g x with
    | true => simp [List.any_cons, hgx]
    | false =>
      simp only [List.any_cons, hgx, Bool.false_or]
      exact ih fun a ha => hf a (List.mem_cons_of_mem x ha)

theorem any_flatMap {α β : Type} (f : α → List β) (p : β → Bool) :
    ∀ l : List α, (l.flatMap f).any p = l.any fun a => (f a).any p := by
  intro l
  induction l with
  | nil => rfl
  | cons x xs ih => simp [List.flatMap_cons, List.any_append, ih]

theorem BatchContainsTaxes_eq {tb : TransferBatch} (h : taxWalkOk tb = true) :
    BatchContainsTaxes tb =
      some ((reachableChargeInformation tb).any fun ci => ci.taxInformation.isSome) := by
  unfold taxWalkOk at h
  simp only [Bool.and_eq_true] at h
  obtain ⟨hces, hall⟩ := h
  obtain ⟨ces, hc⟩ := Option.isSome_iff_exists.mp hces
  rw [hc] at hall
  simp only [Option.getD_some, List.all_eq_true] at hall
  unfold BatchContainsTaxes reachableChargeInformation
  rw [hc]
  simp only [Option.getD_some]
  rw [any_flatMap]
  apply anyO_eq_some
  intro ce hce
  have hok := hall ce hce
  cases ce with
  | mobileOriginatedCall bsul =>
    simp only [ceListsOk, Bool.and_eq_true] at hok
    obtain ⟨hb, hrest⟩ := hok
    obtain ⟨l, hl⟩ := Option.isSome_iff_exists.mp hb
    subst hl
    simp only [Option.getD_some, List.all_eq_true] at hrest
    simp only [chargeInfosOfCE, Option.getD_some]
    rw [any_flatMap]
    apply anyO_eq_some
    intro bsu hbsu
    obtain ⟨cil, hcil⟩ := Option.isSome_iff_exists.mp (hrest bsu hbsu)
    rw [hcil]
    simp only [Option.getD_some]
    exact anyO_eq_some _ _ cil fun ci _ => rfl
  | mobileTerminatedCall bsul =>
    simp only [ceListsOk, Bool.and_eq_true] at hok
    obtain ⟨hb, hrest⟩ := hok
    obtain ⟨l, hl⟩ := Option.isSome_iff_exists.mp hb
    subst hl
    simp only [Option.getD_some, List.all_eq_true] at hrest
    simp only [chargeInfosOfCE, Option.getD_some]
    rw [any_flatMap]
    apply anyO_eq_some
    intro bsu hbsu
    obtain ⟨cil, hcil⟩ := Option.isSome_iff_exists.mp (hrest bsu hbsu)
    rw [hcil]
    simp only [Option.getD_some]
    exact anyO_eq_some _ _ cil fun ci _ => rfl
  | gprsCall g =>
    cases g with
    | none => simp [ceListsOk] at hok
    | some gg =>
      simp only [ceListsOk] at hok
      obtain ⟨cil, hcil⟩ := Option.isSome_iff_exists.mp hok
      simp only [chargeInfosOfCE, hcil, Option.getD_some]
      exact anyO_eq_some _ _ cil fun ci _ => rfl
  | otherEvent => rfl

theorem BatchContainsDiscounts_eq {tb : TransferBatch} (h : taxWalkOk tb = true) :
    BatchContainsDiscounts tb =
      some ((reachableChargeInformation tb).any fun ci => ci.discountInformation.isSome) := by
  unfold taxWalkOk at h
  simp only [Bool.and_eq_true] at h
  obtain ⟨hces, hall⟩ := h
  obtain ⟨ces, hc⟩ := Option.isSome_iff_exists.mp hces
  rw [hc] at hall
  simp only [Option.getD_some, List.all_eq_true] at hall
  unfold BatchContainsDiscounts reachableChargeInformation
  rw [hc]
  simp only [Option.getD_some]
  rw [any_flatMap]
  apply anyO_eq_some
  intro ce hce
  have hok := hall ce hce
  cases ce with
  | mobileOriginatedCall bsul =>
    simp only [ceListsOk, Bool.and_eq_true] at hok
    obtain ⟨hb, hrest⟩ := hok
    obtain ⟨l, hl⟩ := Option.isSome_iff_exists.mp hb
    subst hl
    simp only [Option.getD_some, List.all_eq_true] at hrest
    simp only [chargeInfosOfCE, Option.getD_some]
    rw [any_flatMap]
    apply anyO_eq_some
    intro bsu hbsu
    obtain ⟨cil, hcil⟩ := Option.isSome_iff_exists.mp (hrest bsu hbsu)
    rw [hcil]
    simp only [Option.getD_some]
    exact anyO_eq_some _ _ cil fun ci _ => rfl
  | mobileTerminatedCall bsul =>
    simp only [ceListsOk, Bool.and_eq_true] at hok
    obtain ⟨hb, hrest⟩ := hok
    obtain ⟨l, hl⟩ := Option.isSome_iff_exists.mp hb
    subst hl
    simp only [Option.getD_some, List.all_eq_true] at hrest
    simp only [chargeInfosOfCE, Option.getD_some]
    rw [any_flatMap]
    apply anyO_eq_some
    intro bsu hbsu
    obtain ⟨cil, hcil⟩ := Option.isSome_iff_exists.mp (hrest bsu hbsu)
    rw [hcil]
    simp only [Option.getD_some]
    exact anyO_eq_some _ _ cil fun ci _ => rfl
  | gprsCall g =>
    cases g with
    | none => simp [ceListsOk] at hok
    | some gg =>
      simp only [ceListsOk] at hok
      obtain ⟨cil, hcil⟩ := Option.isSome_iff_exists.mp hok
      simp only [chargeInfosOfCE, hcil, Option.getD_some]
      exact anyO_eq_some _ _ cil fun ci _ => rfl
  | otherEvent => rfl

theorem ChargeInfoContainsPositiveCharges_eq {tb : TransferBatch} {acc : AccountingInfo}
    {tdp : Int} {ci : ChargeInformation}
    (hacc : tb.accountingInfo = some acc) (htdp : acc.tapDecimalPlaces = some tdp)
    (hcd : ci.chargeDetailList.isSome = true)
    (hch : ∀ cd ∈ ci.chargeDetailList.getD [], cd.charge.isSome = true) :
    ChargeInfoContainsPositiveCharges tb ci =
      some ((ci.chargeDetailList.getD []).any fun cd => decide (0 < cd.charge.getD 0)) := by
  obtain ⟨cdl, hcdl⟩ := Option.isSome_iff_exists.mp hcd
  rw [hcdl] at hch
  simp only [Option.getD_some] at hch
  unfold ChargeInfoContainsPositiveCharges
  rw [hacc]
  simp only [htdp, hcdl, Option.getD_some]
  apply anyO_eq_some
  intro cd hcdm
  obtain ⟨c, hc⟩ := Option.isSome_iff_exists.mp (hch cd hcdm)
  rw [hc]
  simp only [Option.getD_some]
  congr 1
  have hpow : (0 : ℚ) < 10 ^ tdp := zpow_pos (by norm_num) tdp
  rw [decide_eq_decide]
  rw [lt_div_iff₀ hpow, zero_mul]
  exact_mod_cast Iff.rfl

theorem BatchContainsPositiveCharges_eq {tb : TransferBatch} (h : chargeWalkOk tb = true) :
    BatchContainsPositiveCharges tb =
      some ((reachableChargeInformation tb).any fun ci =>
        (ci.chargeDetailList.getD []).any fun cd => decide (0 < cd.charge.getD 0)) := by
  unfold chargeWalkOk at h
  simp only [Bool.and_eq_true] at h
  obtain ⟨⟨hwalk, htdp0⟩, hreach⟩ := h
  obtain ⟨acc, hacc⟩ : ∃ acc, tb.accountingInfo = some acc := by
    cases hx : tb.accountingInfo with
    | none => rw [hx] at htdp0; simp at htdp0
    | some a => exact ⟨a, rfl⟩
  rw [hacc] at htdp0
  obtain ⟨tdp, htdp⟩ := Option.isSome_iff_exists.mp htdp0
  simp only [List.all_eq_true, Bool.and_eq_true] at hreach
  have hci : ∀ ci ∈ reachableChargeInformation tb,
      ChargeInfoContainsPositiveCharges tb ci =
        some ((ci.chargeDetailList.getD []).any fun cd => decide (0 < cd.charge.getD 0)) := by
    intro ci hcim
    obtain ⟨hcd, hch⟩ := hreach ci hcim
    exact ChargeInfoContainsPositiveCharges_eq hacc htdp hcd hch
  unfold taxWalkOk at hwalk
  simp only [Bool.and_eq_true] at hwalk
  obtain ⟨hces, hall⟩ := hwalk
  obtain ⟨ces, hc⟩ := Option.isSome_iff_exists.mp hces
  rw [hc] at hall
  simp only [Option.getD_some, List.all_eq_true] at hall
  have hmem : ∀ ce ∈ ces, ∀ ci ∈ chargeInfosOfCE ce, ci ∈ reachableChargeInformation tb := by
    intro ce hce ci hci'
    unfold reachableChargeInformation
    rw [hc]
    simp only [Option.getD_some]
    exact List.mem_flatMap.mpr ⟨ce, hce, hci'⟩
  unfold BatchContainsPositiveCharges reachableChargeInformation
  rw [hc]
  simp only [Option.getD_some]
  rw [any_flatMap]
  apply anyO_eq_some
  intro ce hce
  have hok := hall ce hce
  cases ce with
  | mobileOriginatedCall bsul =>
    simp only [ceListsOk, Bool.and_eq_true] at hok
    obtain ⟨hb, hrest⟩ := hok
    obtain ⟨l, hl⟩ := Option.isSome_iff_exists.mp hb
    subst hl
    simp only [Option.getD_some, List.all_eq_true] at hrest
    simp only [chargeInfosOfCE, Option.getD_some]
    rw [any_flatMap]
    apply anyO_eq_some
    intro bsu hbsu
    obtain ⟨cil, hcil⟩ := Option.isSome_iff_exists.mp (hrest bsu hbsu)
    rw [hcil]
    simp only [Option.getD_some]
    apply anyO_eq_some
    intro ci hcim
    apply hci
    apply hmem _ hce
    simp only [chargeInfosOfCE, Option.getD_some]
    exact List.mem_flatMap.mpr ⟨bsu, hbsu, by rw [hcil]; exact hcim⟩
  | mobileTerminatedCall bsul =>
    simp only [ceListsOk, Bool.and_eq_true] at hok
    obtain ⟨hb, hrest⟩ := hok
    obtain ⟨l, hl⟩ := Option.isSome_iff_exists.mp hb
    subst hl
    simp only [Option.getD_some, List.all_eq_true] at hrest
    simp only [chargeInfosOfCE, Option.getD_some]
    rw [any_flatMap]
    apply anyO_eq_some
    intro bsu hbsu
    obtain ⟨cil, hcil⟩ := Option.isSome_iff_exists.mp (hrest bsu hbsu)
    rw [hcil]
    simp only [Option.getD_some]
    apply anyO_eq_some
    intro ci hcim
    apply hci
    apply hmem _ hce
    simp only [chargeInfosOfCE, Option.getD_some]
    exact List.mem_flatMap.mpr ⟨bsu, hbsu, by rw [hcil]; exact hcim⟩
  | gprsCall g =>
    cases g with
    | none => simp [ceListsOk] at hok
    | some gg =>
      simp only [ceListsOk] at hok
      obtain ⟨cil, hcil⟩ := Option.isSome_iff_exists.mp hok
      simp only [chargeInfosOfCE, hcil, Option.getD_some]
      apply anyO_eq_some
      intro ci hcim
      apply hci
      apply hmem _ hce
      simp only [chargeInfosOfCE, hcil, Option.getD_some]
      exact hcim
  | otherEvent => rfl

/-- Claim C7 amended. -/
theorem claim_C7_amended :
    ∀ tb : TransferBatch,
    taxWalkOk tb = true →
    BatchContainsTaxes tb =
      some ((reachableChargeInformation tb).any fun ci => ci.taxInformation.isSome) ∧
    BatchContainsDiscounts tb =
      some ((reachableChargeInformation tb).any fun ci => ci.discountInformation.isSome) ∧
    (chargeWalkOk tb = true →
      BatchContainsPositiveCharges tb =
        some ((reachableChargeInformation tb).any fun ci =>
          (ci.chargeDetailList.getD []).any fun cd => decide (0 < cd.charge.getD 0))) :=
  fun _ h =>
    ⟨BatchContainsTaxes_eq h, BatchContainsDiscounts_eq h,
     fun h2 => BatchContainsPositiveCharges_eq h2⟩

/-- Amended C3: the four section-presence checks run first, in order, each
emitting (attempting) a TransferBatch-scoped RAP with the matching
TF_BATCH_*_MISSING code for the first missing section, with no regard to
the addressing triple (for a missing batchControlInfo the construction
dereferences the absent section and crashes); only when all four sections
are present is the minimum-addressable triple checked, returning
VALIDATION_IMPOSSIBLE without any RAP when part of it is absent. -/
theorem claim_C3_amended :
    ∀ (env : RapEnv) (tags0 : StructDescriptor → Nat) (tb : TransferBatch),
    (tb.batchControlInfo = none →
      ValidateTransferBatch env tags0 tb =
        rapStep (CreateTransferBatchRAPFile env tags0 tb
          .TF_BATCH_BATCH_CONTROL_INFO_MISSING) ∧
      ValidateTransferBatch env tags0 tb = none) ∧
    (tb.batchControlInfo ≠ none → tb.accountingInfo = none →
      ValidateTransferBatch env tags0 tb =
        rapStepIgnore (CreateTransferBatchRAPFile env tags0 tb
          .TF_BATCH_ACCOUNTING_INFO_MISSING) ∧
      ∀ (r : TAPValidationResult) (em : RapEmission),
        ValidateTransferBatch env tags0 tb = some (r, some em) →
        em.errorCode = .TF_BATCH_ACCOUNTING_INFO_MISSING ∧
        em.errorContext = [{ pathItemId := tags0 .TransferBatchD >>> 2, itemLevel := 1 }]) ∧
    (tb.batchControlInfo ≠ none → tb.accountingInfo ≠ none → tb.networkInfo = none →
      ValidateTransferBatch env tags0 tb =
        rapStepIgnore (CreateTransferBatchRAPFile env tags0 tb
          .TF_BATCH_NETWORK_INFO_MISSING) ∧
      ∀ (r : TAPValidationResult) (em : RapEmission),
        ValidateTransferBatch env tags0 tb = some (r, some em) →
        em.errorCode = .TF_BATCH_NETWORK_INFO_MISSING ∧
        em.errorContext = [{ pathItemId := tags0 .TransferBatchD >>> 2, itemLevel := 1 }]) ∧
    (tb.batchControlInfo ≠ none → tb.accountingInfo ≠ none → tb.networkInfo ≠ none →
      tb.auditControlInfo = none →
      ValidateTransferBatch env tags0 tb =
        rapStepIgnore (CreateTransferBatchRAPFile env tags0 tb
          .TF_BATCH_AUDIT_CONTROL_INFO_MISSING) ∧
      ∀ (r : TAPValidationResult) (em : RapEmission),
        ValidateTransferBatch env tags0 tb = some (r, some em) →
        em.errorCode = .TF_BATCH_AUDIT_CONTROL_INFO_MISSING ∧
        em.errorContext = [{ pathItemId := tags0 .TransferBatchD >>> 2, itemLevel := 1 }]) ∧
    (∀ bci : BatchControlInfo, tb.batchControlInfo = some bci →
      tb.accountingInfo ≠ none → tb.networkInfo ≠ none → tb.auditControlInfo ≠ none →
      (bci.sender = none ∨ bci.recipient = none ∨ bci.fileSequenceNumber = none) →
      ValidateTransferBatch env tags0 tb = some (.VALIDATION_IMPOSSIBLE, none)) := by
  intro env tags0 tb
  refine ⟨?_, ?_, ?_, ?_, ?_⟩
  · intro hbcin
    have heq : ValidateTransferBatch env tags0 tb =
        rapStep (CreateTransferBatchRAPFile env tags0 tb
          .TF_BATCH_BATCH_CONTROL_INFO_MISSING) := by
      unfold ValidateTransferBatch
      rw [hbcin]
    refine ⟨heq, ?_⟩
    rw [heq]
    unfold CreateTransferBatchRAPFile
    rw [hbcin]
    rfl
  · intro hbcin haccn
    obtain ⟨bci, hbci⟩ := Option.ne_none_iff_exists.mp hbcin
    have heq : ValidateTransferBatch env tags0 tb =
        rapStepIgnore (CreateTransferBatchRAPFile env tags0 tb
          .TF_BATCH_ACCOUNTING_INFO_MISSING) := by
      unfold ValidateTransferBatch
      simp only [← hbci]
      rw [if_pos (by simp [haccn])]
    refine ⟨heq, ?_⟩
    intro r em hrun
    rw [heq] at hrun
    obtain ⟨_, res, em2, hc, hem⟩ := rapStepIgnore_eq_some hrun
    obtain ⟨_, hcd, _, hctx, _⟩ := CreateTransferBatchRAPFile_some hc
    obtain rfl := Option.some.inj hem
    exact ⟨hcd, hctx⟩
  · intro hbcin haccs hnetn
    obtain ⟨bci, hbci⟩ := Option.ne_none_iff_exists.mp hbcin
    have heq : ValidateTransferBatch env tags0 tb =
        rapStepIgnore (CreateTransferBatchRAPFile env tags0 tb
          .TF_BATCH_NETWORK_INFO_MISSING) := by
      unfold ValidateTransferBatch
      simp only [← hbci]
      rw [if_neg (by simp [Option.isNone_iff_eq_none, haccs]),
         if_pos (by simp [hnetn])]
    refine ⟨heq, ?_⟩
    intro r em hrun
    rw [heq] at hrun
    obtain ⟨_, res, em2, hc, hem⟩ := rapStepIgnore_eq_some hrun
    obtain ⟨_, hcd, _, hctx, _⟩ := CreateTransferBatchRAPFile_some hc
    obtain rfl := Option.some.inj hem
    exact ⟨hcd, hctx⟩
  · intro hbcin haccs hnets haudn
    obtain ⟨bci, hbci⟩ := Option.ne_none_iff_exists.mp hbcin
    have heq : ValidateTransferBatch env tags0 tb =
        rapStepIgnore (CreateTransferBatchRAPFile env tags0 tb
          .TF_BATCH_AUDIT_CONTROL_INFO_MISSING) := by
      unfold ValidateTransferBatch
      simp only [← hbci]
      rw [if_neg (by simp [Option.isNone_iff_eq_none, haccs]),
         if_neg (by simp [Option.isNone_iff_eq_none, hnets]),
         if_pos (by simp [haudn])]
    refine ⟨heq, ?_⟩
    intro r em hrun
    rw [heq] at hrun
    obtain ⟨_, res, em2, hc, hem⟩ := rapStepIgnore_eq_some hrun
    obtain ⟨_, hcd, _, hctx, _⟩ := CreateTransferBatchRAPFile_some hc
    obtain rfl := Option.some.inj hem
    exact ⟨hcd, hctx⟩
  · intro bci hbci haccs hnets hauds htriple
    unfold ValidateTransferBatch
    simp only [hbci]
    rw [if_neg (by simp [Option.isNone_iff_eq_none, haccs]),
       if_neg (by simp [Option.isNone_iff_eq_none, hnets]),
       if_neg (by simp [Option.isNone_iff_eq_none, hauds])]
    have hv : ValidateBatchControlInfo env tags0 tb = some (.VALIDATION_IMPOSSIBLE, none) := by
      unfold ValidateBatchControlInfo
      simp only [hbci]
      rw [if_pos (by rcases htriple with h | h | h <;> simp [h])]
    simp [hv]

theorem foldlDecode (l : List Int) :
    ∀ a : Int, l.foldl (fun x b => 256 * x + b) a = a * 256 ^ l.length + decodeBE l := by
  induction l with
  | nil => intro a; simp [decodeBE]
  | cons x xs ih =>
    intro a
    simp only [List.foldl_cons, decodeBE, List.length_cons]
    rw [ih (256 * a + x), ih (256 * 0 + x)]
    ring

theorem decodeBE_cons (a : Int) (l : List Int) :
    decodeBE (a :: l) = a * 256 ^ l.length + decodeBE l := by
  have h := foldlDecode l (256 * 0 + a)
  simp only [decodeBE, List.foldl_cons] at *
  rw [h]
  ring

theorem decodeBE_append_singleton (l : List Int) (b : Int) :
    decodeBE (l ++ [b]) = 256 * decodeBE l + b := by
  simp [decodeBE, List.foldl_append]

theorem decodeBE_nonneg : ∀ l : List Int, (∀ b ∈ l, 0 ≤ b) → 0 ≤ decodeBE l := by
  intro l
  induction l with
  | nil => intro _; simp [decodeBE]
  | cons a xs ih =>
    intro h
    rw [decodeBE_cons]
    have ha := h a (List.mem_cons_self a xs)
    have hxs := ih fun b hb => h b (List.mem_cons_of_mem a hb)
    have hp : (0:ℤ) ≤ 256 ^ xs.length := by positivity
    nlinarith

theorem decodeBE_lt : ∀ l : List Int, (∀ b ∈ l, 0 ≤ b ∧ b < 256) →
    decodeBE l < 256 ^ l.length := by
  intro l
  induction l with
  | nil => intro _; simp [decodeBE]
  | cons a xs ih =>
    intro h
    rw [decodeBE_cons]
    have ha := h a (List.mem_cons_self a xs)
    have hxs := ih fun b hb => h b (List.mem_cons_of_mem a hb)
    have hp : (0:ℤ) < 256 ^ xs.length := by positivity
    simp only [List.length_cons, pow_succ]
    nlinarith [ha.1, ha.2, hxs, hp]

theorem emitLoop_spec :
    ∀ (fuel : Nat) (v : Int), 0 ≤ v → v < 256 ^ fuel → 0 < fuel →
    (RAPFile.OctetString_fromInt64Loop v fuel).2 = 0 ∧
    (RAPFile.OctetString_fromInt64Loop v fuel).1 ≠ [] ∧
    (RAPFile.OctetString_fromInt64Loop v fuel).1.length ≤ fuel ∧
    (∀ b ∈ (RAPFile.OctetString_fromInt64Loop v fuel).1, 0 ≤ b ∧ b < 256) ∧
    decodeBE ((RAPFile.OctetString_fromInt64Loop v fuel).1.reverse) = v ∧
    (v ≠ 0 → (RAPFile.OctetString_fromInt64Loop v fuel).1.getLast? ≠ some 0) ∧
    (v = 0 → (RAPFile.OctetString_fromInt64Loop v fuel).1 = [0]) := by
  intro fuel
  induction fuel with
  | zero => intro v _ _ h; exact absurd h (by norm_num)
  | succ fuel ih =>
    intro v hv hlt _
    have h256 : (0:ℤ) < 256 := by norm_num
    have hb0 : 0 ≤ v.emod 256 := Int.emod_nonneg v (by norm_num)
    have hb1 : v.emod 256 < 256 := Int.emod_lt_of_pos v h256
    have hde : 256 * (v.ediv 256) + v.emod 256 = v := Int.ediv_add_emod v 256
    by_cases hvz : v.ediv 256 = 0
    · have hres : RAPFile.OctetString_fromInt64Loop v (fuel + 1) = ([v.emod 256], 0) := by
        unfold RAPFile.OctetString_fromInt64Loop
        simp only [if_pos hvz]
      have hvb : v.emod 256 = v := by rw [hvz] at hde; linarith
      rw [hres]
      refine ⟨rfl, by simp, by simp, ?_, ?_, ?_, ?_⟩
      · intro b hb
        simp only [List.mem_singleton] at hb
        subst hb
        exact ⟨hb0, hb1⟩
      · simp [decodeBE, hvb]
      · intro hne
        simp only [List.getLast?_singleton, hvb, ne_eq, Option.some.injEq]
        exact hne
      · intro h0
        rw [hvb, h0]
    · have hv' : 0 ≤ v.ediv 256 := Int.ediv_nonneg hv (by norm_num)
      have hvlt : v.ediv 256 < 256 ^ fuel := by
        have hle : 256 * (v.ediv 256) ≤ v := by linarith
        have hmul : 256 * (v.ediv 256) < 256 * 256 ^ fuel := by
          calc 256 * (v.ediv 256) ≤ v := hle
            _ < 256 ^ (fuel + 1) := hlt
            _ = 256 * 256 ^ fuel := by rw [pow_succ]; ring
        exact lt_of_mul_lt_mul_left hmul (by norm_num)
      have hfuel : 0 < fuel := by
        rcases Nat.eq_zero_or_pos fuel with hf | hf
        · subst hf
          simp only [pow_zero] at hvlt
          omega
        · exact hf
      obtain ⟨ih2, ihne, ihlen, ihmem, ihdec, ihlast, _⟩ := ih (v.ediv 256) hv' hvlt hfuel
      have hres : RAPFile.OctetString_fromInt64Loop v (fuel + 1) =
          (v.emod 256 :: (RAPFile.OctetString_fromInt64Loop (v.ediv 256) fuel).1,
           (RAPFile.OctetString_fromInt64Loop (v.ediv 256) fuel).2) := by
        simp only [RAPFile.OctetString_fromInt64Loop]
        rw [if_neg hvz]
      rw [hres]
      refine ⟨ih2, by simp, ?_, ?_, ?_, ?_, ?_⟩
      · simp only [List.length_cons]
        omega
      · intro b hb
        rcases List.mem_cons.mp hb with rfl | hm
        · exact ⟨hb0, hb1⟩
        · exact ihmem b hm
      · rw [List.reverse_cons, decodeBE_append_singleton, ihdec]
        exact hde
      · intro _
        cases hp : (RAPFile.OctetString_fromInt64Loop (v.ediv 256) fuel).1 with
        | nil => exact absurd hp ihne
        | cons a l =>
          rw [List.getLast?_cons_cons]
          rw [hp] at ihlast
          exact ihlast hvz
      · intro h0
        exfalso
        rw [h0] at hvz
        exact hvz (by norm_num)

/-- Claim C6. -/
theorem claim_C6_octet_minimality :
    ∀ v : Int, 0 ≤ v → v < 2 ^ 63 →
    ∃ bs, RAPFile.OctetString_fromInt64 v = some bs ∧
      bs ≠ [] ∧
      (∀ b ∈ bs, 0 ≤ b ∧ b < 256) ∧
      decodeBE bs = v ∧
      bs.headI < 128 ∧
      (bs.headI = 0 → bs.length = 1 ∨ 128 ≤ bs.tail.headI) ∧
      (∃ m, decodeBE m = v ∧ m ≠ [] ∧ (1 < m.length → m.headI ≠ 0) ∧
        bs = if 128 ≤ m.headI then 0 :: m else m) ∧
      (∀ cs, cs ≠ [] → (∀ b ∈ cs, 0 ≤ b ∧ b < 256) → cs.headI < 128 →
        decodeBE cs = v → bs.length ≤ cs.length) := by
  intro v hv hlt
  have hlt8 : v < 256 ^ 8 := by
    calc v < 2 ^ 63 := hlt
      _ ≤ 256 ^ 8 := by norm_num
  obtain ⟨h2, hne, hlen, hmem, hdec, hlast, hzero⟩ := emitLoop_spec 8 v hv hlt8 (by norm_num)
  obtain ⟨m, rest, hbe⟩ : ∃ m rest,
      (RAPFile.OctetString_fromInt64Loop v 8).1.reverse = m :: rest := by
    cases hr : (RAPFile.OctetString_fromInt64Loop v 8).1.reverse with
    | nil => exact absurd (by simpa using congrArg List.reverse hr) hne
    | cons a l => exact ⟨a, l, rfl⟩
  have hdecbe : decodeBE (m :: rest) = v := by rw [← hbe]; exact hdec
  have hmemb : ∀ b ∈ m :: rest, 0 ≤ b ∧ b < 256 := by
    intro b hb
    rw [← hbe] at hb
    exact hmem b (List.mem_reverse.mp hb)
  have hm0 : v ≠ 0 → m ≠ 0 := by
    intro hvne hme
    have hh : (RAPFile.OctetString_fromInt64Loop v 8).1.getLast? = some m := by
      rw [← List.head?_reverse, hbe]
      rfl
    exact hlast hvne (by rw [hh, hme])
  have hz : v = 0 → m :: rest = [0] := by
    intro h0
    rw [← hbe, hzero h0]
    rfl
  have hlenbe : rest.length + 1 ≤ 8 := by
    have h8 : (RAPFile.OctetString_fromInt64Loop v 8).1.reverse.length ≤ 8 := by
      rw [List.length_reverse]
      exact hlen
    rw [hbe] at h8
    simpa using h8
  have hrest0 : 0 ≤ decodeBE rest :=
    decodeBE_nonneg rest fun b hb => (hmemb b (List.mem_cons_of_mem m hb)).1
  have hvge : m * 256 ^ rest.length ≤ v := by
    rw [← hdecbe, decodeBE_cons]
    linarith
  have hmb := hmemb m (List.mem_cons_self m rest)
  by_cases hM : 128 ≤ m
  · have hnot8 : ¬ (RAPFile.OctetString_fromInt64Loop v 8).1.length = 8 := by
      intro h8
      have hrl : rest.length = 7 := by
        have hx : (RAPFile.OctetString_fromInt64Loop v 8).1.reverse.length = 8 := by
          rw [List.length_reverse]; exact h8
        rw [hbe] at hx
        simpa using hx
      rw [hrl] at hvge
      have hge : (2:ℤ) ^ 63 ≤ v := by
        calc (2:ℤ) ^ 63 = 128 * 256 ^ 7 := by norm_num
          _ ≤ m * 256 ^ 7 := by
              have : (0:ℤ) ≤ 256 ^ 7 := by positivity
              nlinarith
          _ ≤ v := hvge
      linarith
    have hout : RAPFile.OctetString_fromInt64 v = some (0 :: m :: rest) := by
      simp only [RAPFile.OctetString_fromInt64]
      rw [h2]
      rw [if_neg (by simp)]
      rw [hbe]
      rw [if_pos (by simpa using hM)]
      rw [if_neg hnot8]
    refine ⟨0 :: m :: rest, hout, by simp, ?_, ?_, by norm_num, ?_, ?_, ?_⟩
    · intro b hb
      rcases List.mem_cons.mp hb with rfl | hb2
      · norm_num
      · exact hmemb b hb2
    · rw [decodeBE_cons, hdecbe]
      ring
    · intro _
      right
      simpa using hM
    · refine ⟨m :: rest, hdecbe, by simp, fun _ => ?_, ?_⟩
      · simp only [List.headI]
        intro hme
        rw [hme] at hM
        norm_num at hM
      · rw [if_pos (by simpa using hM)]
    · intro cs hcs hcsb hcsh hcsd
      by_contra hcon
      push_neg at hcon
      obtain ⟨c, cr, rfl⟩ : ∃ c cr, cs = c :: cr := by
        cases cs with
        | nil => exact absurd rfl hcs
        | cons a l => exact ⟨a, l, rfl⟩
      simp only [List.length_cons] at hcon
      have hcr : cr.length ≤ rest.length := by omega
      have hcd : decodeBE cr < 256 ^ cr.length :=
        decodeBE_lt cr fun b hb => hcsb b (List.mem_cons_of_mem c hb)
      have hch : c < 128 := by simpa using hcsh
      have hvlt' : v < 128 * 256 ^ cr.length := by
        rw [← hcsd, decodeBE_cons]
        have hcp : (0:ℤ) < 256 ^ cr.length := by positivity
        nlinarith
      have hmono : (256:ℤ) ^ cr.length ≤ 256 ^ rest.length :=
        pow_le_pow_right₀ (by norm_num) hcr
      have : v < m * 256 ^ rest.length := by
        have hcp : (0:ℤ) < 256 ^ rest.length := by positivity
        calc v < 128 * 256 ^ cr.length := hvlt'
          _ ≤ 128 * 256 ^ rest.length := by nlinarith
          _ ≤ m * 256 ^ rest.length := by nlinarith
      linarith
  · push_neg at hM
    have hout : RAPFile.OctetString_fromInt64 v = some (m :: rest) := by
      simp only [RAPFile.OctetString_fromInt64]
      rw [h2]
      rw [if_neg (by simp)]
      rw [hbe]
      rw [if_neg (by simpa using not_le.mpr hM)]
    have hm0' : 1 < (m :: rest).length → m ≠ 0 := by
      intro hl hme
      have hvz : v = 0 := by
        by_contra hvne
        exact hm0 hvne hme
      have := hz hvz
      rw [this] at hl
      simp at hl
    refine ⟨m :: rest, hout, by simp, hmemb, hdecbe, by simpa using hM, ?_, ?_, ?_⟩
    · intro hme
      simp only [List.headI] at hme
      left
      have hvz : v = 0 := by
        by_contra hvne
        exact hm0 hvne hme
      rw [hz hvz]
      rfl
    · exact ⟨m :: rest, hdecbe, by simp, hm0', by rw [if_neg (by simpa using not_le.mpr hM)]⟩
    · intro cs hcs hcsb _ hcsd
      cases hrt : rest with
      | nil =>
        have : 1 ≤ cs.length := by
          cases cs with
          | nil => exact absurd rfl hcs
          | cons a l => simp
        simpa [hrt] using this
      | cons r0 rl =>
        have hmne : m ≠ 0 := by
          apply hm0'
          rw [hrt]
          simp
        have hm1 : 1 ≤ m := by omega
        have hvge' : (256:ℤ) ^ rest.length ≤ v := by
          have hcp : (0:ℤ) < 256 ^ rest.length := by positivity
          nlinarith
        by_contra hcon
        push_neg at hcon
        simp only [List.length_cons] at hcon
        have hrleq : rest.length = rl.length + 1 := by rw [hrt]; simp
        have hcr : cs.length ≤ rest.length := by omega
        have hcd : decodeBE cs < 256 ^ cs.length := decodeBE_lt cs fun b hb => hcsb b hb
        have hmono : (256:ℤ) ^ cs.length ≤ 256 ^ rest.length :=
          pow_le_pow_right₀ (by norm_num) hcr
        rw [hcsd] at hcd
        linarith
/-- Claim C1: the RAP header addressing is claimed to be swapped relative to
the TAP input. Evaluating the code at a TAP with sender "AAA" and recipient
"BBB" shows the emitted RAP carries `rapBatchControlInfoRap.sender = "AAA"`
(the TAP sender) and `recipient = "BBB"` (the TAP recipient): no swap
happens, although `rapFileSequenceNumber` does equal the
catalogue-allocated value. This contradicts both the claim and the source's
own comment "sender and recipient switch their places". -/
theorem claim_C1_header_not_swapped :
    ValidateTransferBatch env0 tags0c tbSpecVersionMissing =
      some (.FATAL_ERROR, some emSpecVersionMissing) ∧
    tbSpecVersionMissing.batchControlInfo = some { bciFull with specificationVersionNumber := none } ∧
    bciFull.sender = some "AAA" ∧ bciFull.recipient = some "BBB" ∧
    emSpecVersionMissing.rapSender = "AAA" ∧ emSpecVersionMissing.rapRecipient = "BBB" ∧
    emSpecVersionMissing.rapSender ≠ "BBB" ∧
    emSpecVersionMissing.rapFileSequenceNumber = env0.rapSequenceNum := by
  decide

/-- Claim C2 counterexample: on a TransferBatch whose accountingInfo section
is missing, the source returns FATAL_ERROR even though RAP production
failed (`CreateRAPFile` returned a negative value), because that branch of
`ValidateTransferBatch` ignores `createRapRes`. -/
theorem claim_C2_counterexample :
    envNeg.result < 0 ∧
    (ValidateTransferBatch envNeg tags0c tbAccountingMissing).map Prod.fst =
      some .FATAL_ERROR := by
  decide

/-- Claim C3 counterexample: with `sender` absent (addressing triple
incomplete) and `accountingInfo` absent, the code does not return
VALIDATION_IMPOSSIBLE without a RAP; it reaches the accountingInfo
section-presence check first and the RAP construction dereferences the
absent sender (a crash, modelled as `none`). -/
theorem claim_C3_counterexample :
    tbTripleBrokenAccountingMissing.batchControlInfo =
      some { bciFull with sender := none } ∧
    ValidateTransferBatch env0 tags0c tbTripleBrokenAccountingMissing = none ∧
    ValidateTransferBatch env0 tags0c tbTripleBrokenAccountingMissing ≠
      some (.VALIDATION_IMPOSSIBLE, none) := by
  decide

/-- Claim C7 counterexample: the three predicate evaluators are not total;
with `callEventDetails` absent each of them dereferences the null pointer
(modelled as `none`) instead of treating the missing list as empty. -/
theorem claim_C7_counterexample :
    tbNoCallList.callEventDetails = none ∧
    BatchContainsTaxes tbNoCallList = none ∧
    BatchContainsDiscounts tbNoCallList = none ∧
    BatchContainsPositiveCharges tbNoCallList = none := by
  decide

/-- Claim C9: a Notification validates to TAP_VALID exactly when sender,
recipient and fileSequenceNumber are all present and to
VALIDATION_IMPOSSIBLE otherwise, emitting no RAP in either case; every
variant other than TransferBatch and Notification yields
VALIDATION_IMPOSSIBLE. -/
theorem claim_C9_notification_and_other_variants :
    ∀ (env : RapEnv) (tags0 : StructDescriptor → Nat) (n : Notification),
    Validate env tags0 (.notification n) =
      some ((if n.sender.isSome && n.recipient.isSome && n.fileSequenceNumber.isSome
             then TAPValidationResult.TAP_VALID else .VALIDATION_IMPOSSIBLE), none) ∧
    Validate env tags0 .otherVariant = some (.VALIDATION_IMPOSSIBLE, none) := by
  intro env tags0 n
  refine ⟨?_, rfl⟩
  rcases n with ⟨s, r, f⟩
  cases s <;> cases r <;> cases f <;> rfl

theorem claim_C2_amended_witness :
    0 ≤ envNeg.result ∨
      (tbAccountingMissing.batchControlInfo.isSome ∧
        (tbAccountingMissing.accountingInfo = none ∨ tbAccountingMissing.networkInfo = none ∨
         tbAccountingMissing.auditControlInfo = none)) :=
  claim_C2_amended envNeg tags0c tbAccountingMissing (some emAccountingMissing) (by decide)

theorem claim_C3_amended_witness :
    ValidateTransferBatch env0 tags0c tbAccountingMissing =
      rapStepIgnore (CreateTransferBatchRAPFile env0 tags0c tbAccountingMissing
        .TF_BATCH_ACCOUNTING_INFO_MISSING) ∧
    emAccountingMissing.errorCode = .TF_BATCH_ACCOUNTING_INFO_MISSING ∧
    emAccountingMissing.errorContext =
      [{ pathItemId := tags0c .TransferBatchD >>> 2, itemLevel := 1 }] ∧
    ValidateTransferBatch env0 tags0c tbNoSender = some (.VALIDATION_IMPOSSIBLE, none) :=
  ⟨((claim_C3_amended env0 tags0c tbAccountingMissing).2.1 (by decide) (by decide)).1,
   (((claim_C3_amended env0 tags0c tbAccountingMissing).2.1 (by decide) (by decide)).2
     .FATAL_ERROR emAccountingMissing (by decide)).1,
   (((claim_C3_amended env0 tags0c tbAccountingMissing).2.1 (by decide) (by decide)).2
     .FATAL_ERROR emAccountingMissing (by decide)).2,
   (claim_C3_amended env0 tags0c tbNoSender).2.2.2.2 bciNoSender (by decide) (by decide)
     (by decide) (by decide) (Or.inl (by decide))⟩

theorem claim_C4_witness :
    ValidateAccountingInfo env0 tags0c tbLocalCurrencyMissing =
      some (.FATAL_ERROR, some emLocalCurrencyMissing) ∧
    specAccountingFirstError tbLocalCurrencyMissing = some emLocalCurrencyMissing.errorCode :=
  ⟨by decide,
   (claim_C4_accounting_rule_priority env0 tags0c tbLocalCurrencyMissing .FATAL_ERROR
     emLocalCurrencyMissing (by decide)).1⟩

theorem claim_C5_witness :
    Validate env0 tags0c (.transferBatch tbSpecVersionMissing) =
      some (.FATAL_ERROR, some emSpecVersionMissing) ∧
    wellFormedContext tags0c emSpecVersionMissing.errorContext :=
  ⟨by decide,
   claim_C5_context_invariant env0 tags0c (.transferBatch tbSpecVersionMissing) .FATAL_ERROR
     emSpecVersionMissing (by decide)⟩

theorem claim_C6_witness :
    (0:ℤ) ≤ 500 ∧ (500:ℤ) < 2 ^ 63 ∧
    ∃ bs, RAPFile.OctetString_fromInt64 500 = some bs ∧
      bs ≠ [] ∧
      (∀ b ∈ bs, 0 ≤ b ∧ b < 256) ∧
      decodeBE bs = 500 ∧
      bs.headI < 128 ∧
      (bs.headI = 0 → bs.length = 1 ∨ 128 ≤ bs.tail.headI) ∧
      (∃ m, decodeBE m = 500 ∧ m ≠ [] ∧ (1 < m.length → m.headI ≠ 0) ∧
        bs = if 128 ≤ m.headI then 0 :: m else m) ∧
      (∀ cs, cs ≠ [] → (∀ b ∈ cs, 0 ≤ b ∧ b < 256) → cs.headI < 128 →
        decodeBE cs = 500 → bs.length ≤ cs.length) :=
  ⟨by norm_num, by norm_num,
   claim_C6_octet_minimality 500 (by norm_num) (by norm_num)⟩

theorem claim_C7_amended_witness :
    taxWalkOk tbWalk = true ∧ chargeWalkOk tbWalk = true ∧
    BatchContainsTaxes tbWalk =
      some ((reachableChargeInformation tbWalk).any fun ci => ci.taxInformation.isSome) ∧
    BatchContainsPositiveCharges tbWalk =
      some ((reachableChargeInformation tbWalk).any fun ci =>
        (ci.chargeDetailList.getD []).any fun cd => decide (0 < cd.charge.getD 0)) :=
  ⟨by decide, by decide, (claim_C7_amended tbWalk (by decide)).1,
   (claim_C7_amended tbWalk (by decide)).2.2 (by decide)⟩

theorem claim_C8_witness :
    rulesHoldB tbValid = true ∧
    Validate env0 tags0c (.transferBatch tbValid) = some (.TAP_VALID, none) :=
  ⟨by decide, claim_C8_soundness env0 tags0c tbValid (by decide)⟩

theorem claim_C10_witness :
    ValidateTransferBatch env0 tags0c tbValid = some (.TAP_VALID, none) ∧
    (∀ e ∈ [ccEntry], e.exchangeRateCode.isSome = true ∧ e.numberOfDecimalPlaces.isSome = true ∧
      e.exchangeRate.isSome = true) ∧
    List.Pairwise (fun a b => a.exchangeRateCode ≠ b.exchangeRateCode) [ccEntry] :=
  ⟨by decide,
   (claim_C10_currency_conversion_uniqueness env0 tags0c tbValid none accFull [ccEntry]
     (by decide) (by decide) (by decide)).1,
   (claim_C10_currency_conversion_uniqueness env0 tags0c tbValid none accFull [ccEntry]
     (by decide) (by decide) (by decide)).2⟩
